import Mathlib

/-!
Verification development for the FocusForge session analyzer.

The Python sources (`analyzer.py`, `gemini_analyzer.py`, `agent_planner.py`)
are shallowly embedded below.  Python dicts with a fixed shape become
structures (a missing key is `none`), dicts used as insertion-ordered maps
become association lists, machine integers become `Int`, and functions that
raise become `Except String`-valued functions.  String manipulation is done
on `List Char` (`String.data`) so that every definition evaluates inside the
kernel.
-/

/-- Python `a or b` for strings: `a` when non-empty, else `b`. -/
def pyOr (a b : String) : String := if a = "" then b else a

/-- Substring test on char lists: `needle` occurs inside `hay`
(Python `needle in hay` for strings). -/
def isInfixChars (needle hay : List Char) : Bool :=
  hay.tails.any (fun t => needle.isPrefixOf t)

/-- Substring test on strings. -/
def strContainsSub (hay needle : String) : Bool :=
  isInfixChars needle.data hay.data

/-- Characters allowed in a URL scheme, after the leading letter
(CPython `urllib.parse.scheme_chars`). -/
def isSchemeChar (c : Char) : Bool :=
  c.isAlpha || c.isDigit || c == '+' || c == '-' || c == '.'

/-- Drop a leading `scheme:` from a URL if the prefix before the first `:`
is a valid scheme (starts with a letter, all scheme chars), per CPython
`urlsplit`. -/
def dropSchemeChars (cs : List Char) : List Char :=
  let before := cs.takeWhile (fun c => c != ':')
  if 0 < before.length ∧ before.length < cs.length ∧
      (before.headD 'a').isAlpha = true ∧ before.all isSchemeChar = true then
    cs.drop (before.length + 1)
  else cs

/-- Split off the netloc: when the string starts with `//`, the netloc is
everything up to the next `/`, `?` or `#`, per CPython `urlsplit`
(bracketed IPv6 validation is not modelled; it only raises on malformed
brackets). -/
def netlocAndRest (cs : List Char) : List Char × List Char :=
  match cs with
  | '/' :: '/' :: rest =>
    let netloc := rest.takeWhile (fun c => c != '/' && c != '?' && c != '#')
    (netloc, rest.drop netloc.length)
  | _ => ([], cs)

/-- Keep everything strictly before the first occurrence of `sep`. -/
def dropFromChar (sep : Char) (cs : List Char) : List Char :=
  cs.takeWhile (fun c => c != sep)

/-- CPython `urlparse._splitparams`: remove a `;params` suffix from the last
path segment. -/
def dropParamsChars (cs : List Char) : List Char :=
  if cs.contains '/' then
    let revTail := cs.reverse.takeWhile (fun c => c != '/')
    cs.take (cs.length - revTail.length) ++
      revTail.reverse.takeWhile (fun c => c != ';')
  else cs.takeWhile (fun c => c != ';')

/-- Strip one leading case-insensitive `www.`
(`re.sub(r'^www\.', '', domain, flags=re.IGNORECASE)`; the anchored pattern
can only match once). -/
def stripWww (cs : List Char) : List Char :=
  if (cs.take 4).map Char.toLower = ['w', 'w', 'w', '.'] then cs.drop 4 else cs

/-- `analyzer.extract_domain`: `urlparse` the URL, take `netloc or path`,
strip a leading `www.`, lowercase.  The `except` branch returning
`"unknown"` is unreachable here since the modelled parse never raises. -/
def extract_domain (url : String) : String :=
  let cs := dropSchemeChars url.data
  let netloc := (netlocAndRest cs).1
  let path := dropParamsChars (dropFromChar '?' (dropFromChar '#' (netlocAndRest cs).2))
  let domain := if netloc.isEmpty then path else netloc
  String.mk ((stripWww domain).map Char.toLower)

/-- A browser tracking event (`ts`, `url`, `title`, `durationSec`).
Python reads the fields with `.get(key, default)`; the structure models an
event carrying all four keys. -/
structure Event where
  ts : Int
  url : String
  title : String
  durationSec : Int
  deriving DecidableEq, Inhabited

/-- One value of `analyzer.group_events_by_domain`'s mapping:
`{"timeSec": int, "urls": {url: timeSec}}`, with the inner `defaultdict`
kept as an insertion-ordered association list. -/
structure Bucket where
  timeSec : Int
  urls : List (String × Int)
  deriving DecidableEq, Inhabited

/-- `urls[url] += t` on an insertion-ordered association list: update the
existing entry in place, or append a new one at the end (Python dict
semantics). -/
def addUrl (urls : List (String × Int)) (u : String) (t : Int) : List (String × Int) :=
  match urls with
  | [] => [(u, t)]
  | (u1, t1) :: rest =>
    if u1 = u then (u1, t1 + t) :: rest else (u1, t1) :: addUrl rest u t

/-- One loop iteration of `group_events_by_domain`:
`domain_data[domain]["timeSec"] += duration` and
`domain_data[domain]["urls"][url] += duration`, with the outer
`defaultdict` kept as an insertion-ordered association list. -/
def bump (acc : List (String × Bucket)) (d u : String) (t : Int) : List (String × Bucket) :=
  match acc with
  | [] => [(d, { timeSec := t, urls := [(u, t)] })]
  | (d1, b) :: rest =>
    if d1 = d then (d1, { timeSec := b.timeSec + t, urls := addUrl b.urls u t }) :: rest
    else (d1, b) :: bump rest d u t

/-- `analyzer.group_events_by_domain`: fold the events into the
domain-keyed mapping, in input order. -/
def group_events_by_domain (events : List Event) : List (String × Bucket) :=
  events.foldl (fun acc e => bump acc (extract_domain e.url) e.url e.durationSec) []

/-- Stable insertion for a descending sort by an `Int` key: `x` is placed
before the first element whose key is `≤` its own, so earlier elements win
ties. -/
def insertByDesc (key : α → Int) (x : α) : List α → List α
  | [] => [x]
  | y :: ys => if key y ≤ key x then x :: y :: ys else y :: insertByDesc key x ys

/-- Python `sorted(l, key=key, reverse=True)`: a stable descending sort
(equal keys keep their original relative order). -/
def sortByDesc (key : α → Int) (l : List α) : List α :=
  l.foldr (insertByDesc key) []

/-- `analyzer.get_top_urls`: sort the per-URL times descending and keep the
first `max_urls` URLs. -/
def get_top_urls (url_dict : List (String × Int)) (max_urls : Nat) : List String :=
  ((sortByDesc (fun p => p.2) url_dict).take max_urls).map (fun p => p.1)

/-- One entry of the `workspaces` array:
`{"label", "timeSec", "topUrls"}`. -/
structure Workspace where
  label : String
  timeSec : Int
  topUrls : List String
  deriving DecidableEq, Inhabited

/-- `analyzer.create_workspaces_from_domains`: sort domains by total time
descending (stable), keep the top `max_workspaces`, and compute each kept
domain's top 5 URLs. -/
def create_workspaces_from_domains (domain_data : List (String × Bucket))
    (max_workspaces : Nat) : List Workspace :=
  ((sortByDesc (fun p => p.2.timeSec) domain_data).take max_workspaces).map
    (fun p => { label := p.1, timeSec := p.2.timeSec, topUrls := get_top_urls p.2.urls 5 })

/-- The `lastStop` object: `{"label", "url"}`. -/
structure LastStop where
  label : String
  url : String
  deriving DecidableEq, Inhabited

/-- `analyzer.get_last_stop`: sort the events by timestamp descending
(stable) and take the first; label is `title or domain or "Unknown"`. -/
def get_last_stop (events : List Event) : LastStop :=
  if events.isEmpty then { label := "Unknown", url := "" }
  else
    let last_event := (sortByDesc (fun e => e.ts) events).headD default
    { label := pyOr last_event.title (pyOr (extract_domain last_event.url) ("Unknown")),
      url := last_event.url }

/-- The result schema of `analyzer.analyzeSession`. -/
structure Summary where
  goalInferred : String
  workspaces : List Workspace
  resumeSummary : String
  lastStop : LastStop
  nextActions : List String
  pendingDecisions : List String
  deriving DecidableEq, Inhabited

/-- `analyzer.analyzeSession`; the `eventsWithDuration` dict is passed as
its `"events"` list. -/
def analyzeSession (goal : String) (events : List Event) : Summary :=
  if events.isEmpty then
    { goalInferred := pyOr goal ("No activity detected"),
      workspaces := [],
      resumeSummary := "No browser activity was recorded in this session.",
      lastStop := { label := "Unknown", url := "" },
      nextActions := [],
      pendingDecisions := [] }
  else
    let domain_data := group_events_by_domain events
    let workspaces := create_workspaces_from_domains domain_data 5
    let top_label := (workspaces.headD default).label
    let goal_inferred :=
      if goal = "" ∧ workspaces ≠ [] then
        (if top_label ≠ "" then "Working on " ++ top_label
         else "No specific goal identified")
      else goal
    let total_time := (workspaces.map (fun w => w.timeSec)).sum
    let num_sites := workspaces.length
    let resume_summary :=
      "Spent " ++ toString total_time ++ " seconds across " ++ toString num_sites ++
        " different sites." ++
        (if workspaces ≠ [] then " Most time on " ++ top_label ++ "." else "")
    let next_actions :=
      if workspaces ≠ [] then
        ["Continue work on " ++ top_label, "Review progress and plan next steps"]
      else []
    { goalInferred := goal_inferred,
      workspaces := workspaces,
      resumeSummary := resume_summary,
      lastStop := get_last_stop events,
      nextActions := next_actions.take 5,
      pendingDecisions := [] }

/-- Split a char list on each occurrence of `sep`, keeping empty pieces
(Python `str.split(sep)` for a one-char separator). -/
def splitOnSep (sep : Char) : List Char → List (List Char)
  | [] => [[]]
  | c :: cs =>
    let r := splitOnSep sep cs
    if c = sep then [] :: r
    else
      match r with
      | [] => [[c]]
      | h :: t => (c :: h) :: t

/-- Python `str.strip()`: remove leading and trailing whitespace. -/
def trimChars (cs : List Char) : List Char :=
  ((cs.dropWhile Char.isWhitespace).reverse.dropWhile Char.isWhitespace).reverse

/-- The sentence count used by `gemini_analyzer.validate_output` for
`aiRecap`: replace `?` and `!` by `.`, split on `.`, count the fragments
that are non-empty after stripping. -/
def sentenceCount (s : String) : Nat :=
  ((splitOnSep '.' (s.data.map (fun c => if c = '?' ∨ c = '!' then '.' else c))).filter
    (fun t => !(trimChars t).isEmpty)).length

/-- A workspace entry of an enrichment candidate: `label` and `timeSec`
only matter through key presence; `topUrls` is `none` when the key is
missing (`ws.get("topUrls", [])`). -/
structure WsCand where
  hasLabel : Bool := true
  hasTimeSec : Bool := true
  topUrls : Option (List String) := some []
  deriving DecidableEq, Inhabited

/-- The candidate's `lastStop` dict; `url` is `none` when the key is
missing (`.get("url", "")`). -/
structure LastStopCand where
  url : Option String := none
  deriving DecidableEq, Inhabited

/-- An enrichment candidate as handed to `validate_output` /
`normalize_ai_fields`: each top-level key is `none` when absent.  Only the
shape that the two functions actually inspect is modelled; the
`aiConfidenceScore` float is carried as a rational (no arithmetic is done
on it). -/
structure Candidate where
  goalInferred : Option String := none
  workspaces : Option (List WsCand) := none
  lastStop : Option LastStopCand := none
  resumeSummary : Option String := none
  nextActions : Option (List String) := none
  pendingDecisions : Option (List String) := none
  aiRecap : Option String := none
  aiActions : Option (List String) := none
  aiConfidenceScore : Option Rat := none
  aiConfidenceLabel : Option String := none
  deriving DecidableEq, Inhabited

/-- The `required_fields` loop of `validate_output`: the first missing
field name, in source order, if any. -/
def requiredMissing (c : Candidate) : Option String :=
  if c.goalInferred.isNone then some ("goalInferred")
  else if c.workspaces.isNone then some ("workspaces")
  else if c.lastStop.isNone then some ("lastStop")
  else if c.resumeSummary.isNone then some ("resumeSummary")
  else if c.nextActions.isNone then some ("nextActions")
  else if c.pendingDecisions.isNone then some ("pendingDecisions")
  else if c.aiRecap.isNone then some ("aiRecap")
  else if c.aiActions.isNone then some ("aiActions")
  else if c.aiConfidenceScore.isNone then some ("aiConfidenceScore")
  else if c.aiConfidenceLabel.isNone then some ("aiConfidenceLabel")
  else none

/-- The `all(key in ws ...)` check for one workspace entry. -/
def wsKeysOk (w : WsCand) : Bool :=
  w.hasLabel && w.hasTimeSec && w.topUrls.isSome

/-- The set `{event.get("url", "") for event in events}`, as a list (only
membership is ever used). -/
def inputUrls (events : List Event) : List String :=
  events.map (fun e => e.url)

/-- The set `{extract_domain(event.get("url", "")) for event in events if
event.get("url")}`, as a list (only `any` over it is ever used). -/
def inputDomains (events : List Event) : List String :=
  (events.filter (fun e => e.url != "")).map (fun e => extract_domain e.url)

/-- `any(domain and domain in action for domain in input_domains)`. -/
def mentionsKnownDomain (doms : List String) (action : String) : Bool :=
  doms.any (fun d => d != "" && strContainsSub action d)

/-- The `lastStop.url` read by the validator:
`output["lastStop"].get("url", "")`. -/
def lastStopUrl (c : Candidate) : String :=
  ((c.lastStop.getD {}).url).getD ("")

/-- All URLs of all workspaces, in the validator's nested loop order. -/
def wsTopUrls (c : Candidate) : List String :=
  (c.workspaces.getD []).flatMap (fun w => w.topUrls.getD [])

/-- `gemini_analyzer.validate_output`: the check sequence, failing with the
source's `ValueError` message on the first violation (the `{ws}` dict repr
in the workspace-structure message is elided).  Returning `True` becomes
`.ok ()`. -/
def validate_output (c : Candidate) (events : List Event) : Except String Unit :=
  match requiredMissing c with
  | some f => .error ("Missing required field: " ++ f)
  | none =>
    let workspaces := c.workspaces.getD []
    if 5 < workspaces.length then
      .error ("Too many workspaces: " ++ toString workspaces.length ++ " (max 5)")
    else if !workspaces.all wsKeysOk then
      .error ("Invalid workspace structure")
    else if 5 < (c.nextActions.getD []).length then
      .error ("Too many nextActions: " ++ toString (c.nextActions.getD []).length ++ " (max 5)")
    else if 3 < (c.pendingDecisions.getD []).length then
      .error ("Too many pendingDecisions: " ++ toString (c.pendingDecisions.getD []).length ++ " (max 3)")
    else if sentenceCount (c.aiRecap.getD ("")) < 2 ∨ 3 < sentenceCount (c.aiRecap.getD ("")) then
      .error ("aiRecap must be 2-3 sentences")
    else if (c.aiActions.getD []).length ≠ 3 then
      .error ("aiActions must have exactly 3 items")
    else
      match (c.aiActions.getD []).find? (fun a => !mentionsKnownDomain (inputDomains events) a) with
      | some a => .error ("aiAction does not mention a known domain: " ++ a)
      | none =>
        if lastStopUrl c ≠ "" ∧ ¬(lastStopUrl c ∈ inputUrls events) then
          .error ("lastStop.url \x27" ++ lastStopUrl c ++ "\x27 not found in input events")
        else
          match (wsTopUrls c).find? (fun u => u != "" && !(inputUrls events).contains u) with
          | some u => .error ("Workspace URL \x27" ++ u ++ "\x27 not found in input events")
          | none => .ok ()

/-- Python truthiness of `output.get(key)` for a string field: present and
non-empty. -/
def optStrTruthy (o : Option String) : Bool :=
  o.getD ("") != ""

/-- Python truthiness of `output.get(key)` for a list field: present and
non-empty. -/
def optListTruthy (o : Option (List String)) : Bool :=
  !(o.getD []).isEmpty

/-- Statement 1 of `normalize_ai_fields`: fill a missing `aiRecap` from a
truthy `resumeSummary`. -/
def fillAiRecap (c : Candidate) : Candidate :=
  if c.aiRecap.isNone && optStrTruthy c.resumeSummary then
    { c with aiRecap := some (c.resumeSummary.getD ("")) } else c

/-- Statement 2: fill a missing `aiActions` from a truthy `nextActions`,
truncated to 3. -/
def fillAiActions (c : Candidate) : Candidate :=
  if c.aiActions.isNone && optListTruthy c.nextActions then
    { c with aiActions := some ((c.nextActions.getD []).take 3) } else c

/-- Statement 3: fill a missing `resumeSummary` from a truthy `aiRecap`. -/
def fillLegacySummary (c : Candidate) : Candidate :=
  if c.resumeSummary.isNone && optStrTruthy c.aiRecap then
    { c with resumeSummary := some (c.aiRecap.getD ("")) } else c

/-- Statement 4: fill a missing `nextActions` from a truthy `aiActions`
(no truncation). -/
def fillLegacyActions (c : Candidate) : Candidate :=
  if c.nextActions.isNone && optListTruthy c.aiActions then
    { c with nextActions := some (c.aiActions.getD []) } else c

/-- Statement 5: default a missing `aiConfidenceScore` to 0.0. -/
def fillScore (c : Candidate) : Candidate :=
  if c.aiConfidenceScore.isNone then { c with aiConfidenceScore := some 0 } else c

/-- Statement 6: default a missing `aiConfidenceLabel` to "low". -/
def fillLabel (c : Candidate) : Candidate :=
  if c.aiConfidenceLabel.isNone then { c with aiConfidenceLabel := some ("low") } else c

/-- `gemini_analyzer.normalize_ai_fields`: the six sequential
fill-if-missing updates, in source order. -/
def normalize_ai_fields (c : Candidate) : Candidate :=
  fillLabel (fillScore (fillLegacyActions (fillLegacySummary (fillAiActions (fillAiRecap c)))))

/-- A Python value as seen by the plan sanitizer (strings, ints, bools,
None, lists, dicts with string keys). -/
inductive PVal where
  | pstr (s : String)
  | pint (n : Int)
  | pbool (b : Bool)
  | pnone
  | plist (xs : List PVal)
  | pdict (kvs : List (String × PVal))
  deriving Inhabited

/-- Python `repr` for the modelled values (string-escaping corner cases are
not modelled; only scalars are ever evaluated concretely). -/
def pyRepr : PVal → String
  | .pstr s => "\x27" ++ s ++ "\x27"
  | .pint n => toString n
  | .pbool b => if b then ("True") else ("False")
  | .pnone => "None"
  | .plist xs => "[" ++ String.intercalate (", ") (xs.attach.map (fun x => pyRepr x.1)) ++ "]"
  | .pdict kvs =>
      "\x7b" ++
        String.intercalate (", ")
          (kvs.attach.map (fun kv => "\x27" ++ kv.1.1 ++ "\x27: " ++ pyRepr kv.1.2)) ++
      "\x7d"
decreasing_by
  · have h := List.sizeOf_lt_of_mem x.2
    simp only [PVal.plist.sizeOf_spec]
    omega
  · have h := List.sizeOf_lt_of_mem kv.2
    have h2 : sizeOf kv.1.2 < sizeOf kv.1 := by
      obtain ⟨a, b⟩ := kv.1
      simp only [Prod.mk.sizeOf_spec]
      omega
    simp only [PVal.pdict.sizeOf_spec]
    omega

/-- Python `str` for the modelled values (`str` equals `repr` except on
strings, which pass through unquoted). -/
def pyStr : PVal → String
  | .pstr s => s
  | .pint n => toString n
  | .pbool b => if b then ("True") else ("False")
  | .pnone => "None"
  | .plist xs => pyRepr (.plist xs)
  | .pdict kvs => pyRepr (.pdict kvs)

/-- Python `dict.get(key)` on the modelled dict. -/
def getKey (kvs : List (String × PVal)) (k : String) : Option PVal :=
  kvs.lookup k

/-- Python `v[:n]`: defined for lists and strings, a `TypeError` otherwise
(messages as raised by CPython). -/
def pySlice (n : Nat) : PVal → Except String PVal
  | .plist xs => .ok (.plist (xs.take n))
  | .pstr s => .ok (.pstr (s.take n))
  | .pint _ => .error ("TypeError: \x27int\x27 object is not subscriptable")
  | .pbool _ => .error ("TypeError: \x27bool\x27 object is not subscriptable")
  | .pnone => .error ("TypeError: \x27NoneType\x27 object is not subscriptable")
  | .pdict _ => .error ("TypeError: unhashable type: \x27slice\x27")

/-- `task.get("dependencies", []) if isinstance(task.get("dependencies"),
list) else []`. -/
def depList (kvs : List (String × PVal)) : List PVal :=
  match getKey kvs ("dependencies") with
  | some (.plist ds) => ds
  | _ => []

/-- The per-task body of `validate_planner_output`'s loop: a task is kept
iff it is a dict containing `id` and `title`; the kept dict is rebuilt with
exactly the source's eight keys (note: no `description`). -/
def sanitize_task (t : PVal) : Option PVal :=
  match t with
  | .pdict kvs =>
    if (getKey kvs ("id")).isSome ∧ (getKey kvs ("title")).isSome then
      some (.pdict
        [("id", .pstr (pyStr ((getKey kvs ("id")).getD (.pstr "")))),
         ("title", .pstr (pyStr ((getKey kvs ("title")).getD (.pstr "")))),
         ("priority", (getKey kvs ("priority")).getD (.pstr "medium")),
         ("urgency", (getKey kvs ("urgency")).getD (.pstr "soon")),
         ("estimatedTime", .pstr (pyStr ((getKey kvs ("estimatedTime")).getD (.pstr "30 minutes")))),
         ("dependencies", .plist (depList kvs)),
         ("reason", .pstr (pyStr ((getKey kvs ("reason")).getD (.pstr "")))),
         ("context", .pstr (pyStr ((getKey kvs ("context")).getD (.pstr ""))))])
    else none
  | _ => none

/-- The sanitized result shape of `validate_planner_output`. -/
structure PlanResult where
  prioritizedTasks : List PVal
  taskOrder : PVal
  suggestions : List String
  insights : List String
  deriving Inhabited

/-- `agent_planner.validate_planner_output`: raises `ValueError` for a
non-dict input; defaults missing top-level keys; drops non-list
`prioritizedTasks`; keeps only dict tasks with `id` and `title` (at most
10, in order); slices `taskOrder` (a `TypeError` for an unsliceable value
propagates); coerces `suggestions`/`insights` when they are lists, else
empties them. -/
def validate_planner_output (output : PVal) : Except String PlanResult :=
  match output with
  | .pdict kvs =>
    let pt := (getKey kvs ("prioritizedTasks")).getD (.plist [])
    let taskOrder := (getKey kvs ("taskOrder")).getD (.plist [])
    let sugg := (getKey kvs ("suggestions")).getD (.plist [])
    let ins := (getKey kvs ("insights")).getD (.plist [])
    let ptList := match pt with | .plist xs => xs | _ => []
    let valid_tasks := ptList.filterMap sanitize_task
    match pySlice 10 taskOrder with
    | .error e => .error e
    | .ok to10 =>
      .ok { prioritizedTasks := valid_tasks.take 10,
            taskOrder := to10,
            suggestions := match sugg with | .plist xs => (xs.take 5).map pyStr | _ => [],
            insights := match ins with | .plist xs => (xs.take 5).map pyStr | _ => [] }
  | _ => .error ("Planner output must be a dictionary")
/-- Sum of the durations of the events whose derived domain is `d` (the
mathematical description of a bucket's `timeSec`, used in theorem
statements). -/
def domTimeSpec (ev : List Event) (d : String) : Int :=
  ((ev.filter (fun e => extract_domain e.url == d)).map (fun e => e.durationSec)).sum

/-- Sum of the durations of the events with derived domain `d` and URL `u`
(the mathematical description of a bucket's per-URL time). -/
def urlTimeSpec (ev : List Event) (d u : String) : Int :=
  ((ev.filter (fun e => extract_domain e.url == d && e.url == u)).map
    (fun e => e.durationSec)).sum

/-- Some event derives domain `d`. -/
def hasDom (ev : List Event) (d : String) : Bool :=
  ev.any (fun e => extract_domain e.url == d)

/-- Some event derives domain `d` and has URL `u`. -/
def hasDomUrl (ev : List Event) (d u : String) : Bool :=
  ev.any (fun e => extract_domain e.url == d && e.url == u)

/-- The at-most-5 workspaces `analyzeSession` builds for a non-empty event
list. -/
def keptWorkspaces (events : List Event) : List Workspace :=
  create_workspaces_from_domains (group_events_by_domain events) 5

/-- The conjunction of every `validate_output` check that runs strictly
before the `lastStop.url` membership check. -/
def preLastStopOk (c : Candidate) (events : List Event) : Prop :=
  requiredMissing c = none ∧
  (c.workspaces.getD []).length ≤ 5 ∧
  (c.workspaces.getD []).all wsKeysOk = true ∧
  (c.nextActions.getD []).length ≤ 5 ∧
  (c.pendingDecisions.getD []).length ≤ 3 ∧
  2 ≤ sentenceCount (c.aiRecap.getD ("")) ∧
  sentenceCount (c.aiRecap.getD ("")) ≤ 3 ∧
  (c.aiActions.getD []).length = 3 ∧
  ∀ a ∈ c.aiActions.getD [], mentionsKnownDomain (inputDomains events) a = true

/-- A one-event input list used for concrete checks. -/
def ev1 : List Event := [{ ts := 1, url := "https://a.com/x", title := "t", durationSec := 1 }]

/-- An enrichment candidate that passes every `validate_output` check even
though one of its workspaces lists the empty string among its `topUrls`. -/
def cand1 : Candidate :=
  { goalInferred := some ("g"),
    workspaces := some [{ hasLabel := true, hasTimeSec := true, topUrls := some [""] }],
    lastStop := some { url := some ("https://a.com/x") },
    resumeSummary := some ("r"),
    nextActions := some [],
    pendingDecisions := some [],
    aiRecap := some ("One. Two."),
    aiActions := some ["visit a.com", "check a.com", "read a.com"],
    aiConfidenceScore := some 1,
    aiConfidenceLabel := some ("high") }

/-- Like `cand1` but with a lastStop URL outside the input and six
`nextActions`: rejected for the `nextActions` length, not the URL. -/
def cand2 : Candidate :=
  { cand1 with
    nextActions := some ["a", "b", "c", "d", "e", "f"],
    lastStop := some { url := some ("https://bad.com") } }

/-- Like `cand1` but with a lastStop URL absent from the input. -/
def cand3 : Candidate :=
  { cand1 with lastStop := some { url := some ("https://not-in-input.com") } }

/-- Like `cand1` but with only two `aiActions`. -/
def cand4 : Candidate :=
  { cand1 with aiActions := some ["visit a.com", "check a.com"] }

/-- Like `cand1` but with three `aiActions` none of which mentions an input
domain. -/
def cand5 : Candidate :=
  { cand1 with aiActions := some ["x", "y", "z"] }

/-- A candidate whose `resumeSummary` is present but empty and whose other
fields are all missing. -/
def cand7 : Candidate := { resumeSummary := some ("") }

/-- Six events over six distinct domains, the last with a negative
duration. -/
def evC2neg : List Event :=
  [{ ts := 1, url := "a.com", title := "", durationSec := 10 },
   { ts := 2, url := "b.com", title := "", durationSec := 10 },
   { ts := 3, url := "c.com", title := "", durationSec := 10 },
   { ts := 4, url := "d.com", title := "", durationSec := 10 },
   { ts := 5, url := "e.com", title := "", durationSec := 10 },
   { ts := 6, url := "f.com", title := "", durationSec := -5 }]

/-- Six events over six distinct domains, all with positive durations. -/
def evSix : List Event :=
  [{ ts := 1, url := "a.com", title := "", durationSec := 10 },
   { ts := 2, url := "b.com", title := "", durationSec := 9 },
   { ts := 3, url := "c.com", title := "", durationSec := 8 },
   { ts := 4, url := "d.com", title := "", durationSec := 7 },
   { ts := 5, url := "e.com", title := "", durationSec := 6 },
   { ts := 6, url := "f.com", title := "", durationSec := 5 }]

/-- The two-event example from the specification. -/
def evPair : List Event :=
  [{ ts := 1, url := "https://leetcode.com/a", title := "", durationSec := 90 },
   { ts := 2, url := "https://docs.google.com/x", title := "", durationSec := 240 }]

/-- Three events where two share the maximal timestamp. -/
def evTies : List Event :=
  [{ ts := 1, url := "https://a.com/x", title := "A", durationSec := 5 },
   { ts := 3, url := "https://b.com/y", title := "B", durationSec := 5 },
   { ts := 3, url := "https://c.com/z", title := "C", durationSec := 5 }]

/-- A planner dict whose `taskOrder` is an int (unsliceable). -/
def planBadOrder : PVal := .pdict [("taskOrder", .pint 0)]

/-- A planner dict with one task whose `priority` is not one of
high/medium/low and which carries a `description`. -/
def planBanana : PVal :=
  .pdict [("prioritizedTasks", .plist
    [.pdict [("id", .pint 1), ("title", .pstr ("t")),
             ("priority", .pstr ("banana")), ("description", .pstr ("d"))]])]

/-- The key-value pairs of the sanitized task produced for `planBanana`'s
single task: the invalid priority is kept verbatim and there is no
`description` key. -/
def bananaTaskKVs : List (String × PVal) :=
  [("id", .pstr ("1")), ("title", .pstr ("t")),
   ("priority", .pstr ("banana")), ("urgency", .pstr ("soon")),
   ("estimatedTime", .pstr ("30 minutes")), ("dependencies", .plist []),
   ("reason", .pstr ("")), ("context", .pstr (""))]

/-- The sanitized task produced for `planBanana`'s single task. -/
def bananaTaskOut : PVal := .pdict bananaTaskKVs

/-- The key-value pairs of a planner dict with twelve well-formed tasks, a
string `taskOrder`, and non-list `suggestions`. -/
def planTwelveKVs : List (String × PVal) :=
  [("prioritizedTasks", .plist
    ((List.range 12).map (fun i =>
      .pdict [("id", .pint i), ("title", .pstr ("t"))]))),
   ("taskOrder", .pstr ("abcdefghijklmno")),
   ("suggestions", .pint 3)]

/-- A planner dict with twelve well-formed tasks, a string `taskOrder`, and
non-list `suggestions`. -/
def planTwelve : PVal := .pdict planTwelveKVs
/-- Unfolding lemma for `List.lookup` on a cons cell, with a propositional
condition. -/
theorem lookup_cons_eq_ite {β : Type} (d d1 : String) (b : β) (rest : List (String × β)) :
    List.lookup d ((d1, b) :: rest) = if d = d1 then some b else List.lookup d rest := by
  by_cases h : d = d1
  · subst h
    simp [List.lookup]
  · have hb : (d == d1) = false := beq_eq_false_iff_ne.mpr h
    simp [List.lookup, hb, h]

/-- `pyOr` written with a positive test. -/
theorem pyOr_eq_ite (a b : String) : pyOr a b = if a ≠ "" then a else b := by
  unfold pyOr
  by_cases h : a = "" <;> simp [h]

/-- Inserting into a stable descending sort is a permutation. -/
theorem insertByDesc_perm (key : α → Int) (x : α) :
    ∀ l : List α, (insertByDesc key x l).Perm (x :: l)
  | [] => List.Perm.refl _
  | y :: ys => by
    unfold insertByDesc
    by_cases h : key y ≤ key x
    · rw [if_pos h]
    · rw [if_neg h]
      exact ((insertByDesc_perm key x ys).cons y).trans (List.Perm.swap x y ys)

/-- The stable descending sort is a permutation of its input. -/
theorem sortByDesc_perm (key : α → Int) :
    ∀ l : List α, (sortByDesc key l).Perm l
  | [] => List.Perm.refl _
  | a :: l => by
    show (insertByDesc key a (sortByDesc key l)).Perm (a :: l)
    exact (insertByDesc_perm key a _).trans ((sortByDesc_perm key l).cons a)

/-- `find?` only depends on the predicate's values on the list. -/
theorem find?_congr_mem {p q : α → Bool} :
    ∀ l : List α, (∀ x ∈ l, p x = q x) → l.find? p = l.find? q
  | [], _ => rfl
  | a :: l, h => by
    have ha := h a (List.mem_cons_self a l)
    by_cases hpa : p a = true
    · rw [List.find?_cons_of_pos _ hpa, List.find?_cons_of_pos _ (ha ▸ hpa)]
    · rw [List.find?_cons_of_neg _ hpa, List.find?_cons_of_neg _ (ha ▸ hpa)]
      exact find?_congr_mem l (fun x hx => h x (List.mem_cons_of_mem a hx))

/-- A bound that dominates a list also dominates through a larger key. -/
theorem all_key_le_trans {key : α → Int} {l : List α} {a c : α}
    (h : l.all (fun b => key b ≤ key a) = true) (hac : key a ≤ key c) :
    l.all (fun b => key b ≤ key c) = true := by
  simp only [List.all_eq_true, decide_eq_true_eq] at h ⊢
  exact fun x hx => le_trans (h x hx) hac

/-- Equation lemma for `insertByDesc` on a cons cell. -/
theorem insertByDesc_cons (key : α → Int) (x y : α) (ys : List α) :
    insertByDesc key x (y :: ys) =
      if key y ≤ key x then x :: y :: ys else y :: insertByDesc key x ys := rfl

/-- The head of the stable descending sort is the first element of the
input that attains the maximal key (the element Python's
`sorted(..., reverse=True)[0]` returns). -/
theorem sortByDesc_head_find (key : α → Int) (l : List α) (hl : l ≠ []) :
    ∃ x xs, sortByDesc key l = x :: xs ∧
      l.find? (fun a => l.all (fun b => key b ≤ key a)) = some x := by
  induction l with
  | nil => exact absurd rfl hl
  | cons a l ih =>
    cases l with
    | nil =>
      refine ⟨a, [], rfl, List.find?_cons_of_pos _ ?_⟩
      simp
    | cons b0 l0 =>
      obtain ⟨x, xs, hsort, hfind⟩ := ih (by simp)
      have hx_all : (b0 :: l0).all (fun b => key b ≤ key x) = true := by
        have h := List.find?_some hfind
        simpa using h
      have hx_mem : x ∈ b0 :: l0 := List.mem_of_find?_eq_some hfind
      have hstep : sortByDesc key (a :: b0 :: l0) = insertByDesc key a (x :: xs) := by
        show insertByDesc key a (sortByDesc key (b0 :: l0)) = _
        rw [hsort]
      by_cases hxa : key x ≤ key a
      · refine ⟨a, x :: xs, ?_, ?_⟩
        · rw [hstep, insertByDesc_cons, if_pos hxa]
        · apply List.find?_cons_of_pos
          have h1 : (b0 :: l0).all (fun b => key b ≤ key a) = true :=
            all_key_le_trans hx_all hxa
          show ((a :: b0 :: l0).all (fun b => key b ≤ key a)) = true
          rw [List.all_cons, h1, Bool.and_true]
          simp
      · have hax : key a < key x := lt_of_not_le hxa
        refine ⟨x, insertByDesc key a xs, ?_, ?_⟩
        · rw [hstep, insertByDesc_cons, if_neg hxa]
        · have hpa : ¬((a :: b0 :: l0).all (fun b => key b ≤ key a) = true) := by
            simp only [List.all_eq_true, decide_eq_true_eq]
            intro hcontra
            exact absurd (hcontra x (List.mem_cons_of_mem a hx_mem)) hxa
          have hrw := @List.find?_cons_of_neg _
            (fun c => (a :: b0 :: l0).all (fun b => key b ≤ key c)) a (b0 :: l0) hpa
          rw [hrw]
          have hpq : ∀ c ∈ b0 :: l0,
              ((a :: b0 :: l0).all (fun b => key b ≤ key c) : Bool) =
                (b0 :: l0).all (fun b => key b ≤ key c) := by
            intro c hc
            by_cases hq : (b0 :: l0).all (fun b => key b ≤ key c) = true
            · have hac : key a ≤ key c := by
                simp only [List.all_eq_true, decide_eq_true_eq] at hq
                exact le_of_lt (lt_of_lt_of_le hax (hq x hx_mem))
              rw [List.all_cons, hq, Bool.and_true, decide_eq_true hac]
            · rw [Bool.not_eq_true] at hq
              rw [List.all_cons, hq, Bool.and_false]
          rw [find?_congr_mem (b0 :: l0) hpq]
          exact hfind

/-- `addUrl` updates the looked-up value of its key by `+ t` (missing keys
count as 0, matching `defaultdict(int)`). -/
theorem addUrl_lookup_self (u : String) (t : Int) :
    ∀ urls : List (String × Int),
      (addUrl urls u t).lookup u = some ((urls.lookup u).getD 0 + t)
  | [] => by
    simp [addUrl, lookup_cons_eq_ite, List.lookup]
  | (u1, t1) :: rest => by
    by_cases h : u1 = u
    · subst h
      simp [addUrl, lookup_cons_eq_ite]
    · have hne : u ≠ u1 := fun hc => h hc.symm
      simp only [addUrl, if_neg h, lookup_cons_eq_ite, if_neg hne]
      exact addUrl_lookup_self u t rest

/-- `addUrl` leaves other keys' lookups unchanged. -/
theorem addUrl_lookup_ne (u u' : String) (t : Int) (h : u' ≠ u) :
    ∀ urls : List (String × Int), (addUrl urls u t).lookup u' = urls.lookup u'
  | [] => by
    simp [addUrl, List.lookup, beq_eq_false_iff_ne.mpr h]
  | (u1, t1) :: rest => by
    by_cases h1 : u1 = u
    · subst h1
      simp [addUrl, lookup_cons_eq_ite, h]
    · simp only [addUrl, if_neg h1, lookup_cons_eq_ite]
      by_cases h2 : u' = u1
      · simp [h2]
      · simp only [if_neg h2]
        exact addUrl_lookup_ne u u' t h rest

/-- `bump` updates the looked-up bucket of its domain: a fresh bucket when
the domain is new, otherwise `timeSec + t` and an `addUrl` on its URL
map. -/
theorem bump_lookup_self (d u : String) (t : Int) :
    ∀ acc : List (String × Bucket),
      (bump acc d u t).lookup d = some (match acc.lookup d with
        | none => { timeSec := t, urls := [(u, t)] }
        | some b => { timeSec := b.timeSec + t, urls := addUrl b.urls u t })
  | [] => by
    simp [bump, lookup_cons_eq_ite, List.lookup]
  | (d1, b) :: rest => by
    by_cases h : d1 = d
    · subst h
      simp [bump, lookup_cons_eq_ite]
    · have hne : d ≠ d1 := fun hc => h hc.symm
      simp only [bump, if_neg h, lookup_cons_eq_ite, if_neg hne]
      exact bump_lookup_self d u t rest

/-- `bump` leaves other domains' buckets unchanged. -/
theorem bump_lookup_ne (d d' u : String) (t : Int) (h : d' ≠ d) :
    ∀ acc : List (String × Bucket), (bump acc d u t).lookup d' = acc.lookup d'
  | [] => by
    simp [bump, List.lookup, beq_eq_false_iff_ne.mpr h]
  | (d1, b) :: rest => by
    by_cases h1 : d1 = d
    · subst h1
      simp [bump, lookup_cons_eq_ite, h]
    · simp only [bump, if_neg h1, lookup_cons_eq_ite]
      by_cases h2 : d' = d1
      · simp [h2]
      · simp only [if_neg h2]
        exact bump_lookup_ne d d' u t h rest

/-- `group_events_by_domain` on one more event is a `bump`. -/
theorem group_events_append (ev : List Event) (e : Event) :
    group_events_by_domain (ev ++ [e]) =
      bump (group_events_by_domain ev) (extract_domain e.url) e.url e.durationSec := by
  unfold group_events_by_domain
  rw [List.foldl_append]
  rfl

theorem hasDom_append (ev : List Event) (e : Event) (d : String) :
    hasDom (ev ++ [e]) d = (hasDom ev d || (extract_domain e.url == d)) := by
  simp [hasDom]

theorem hasDomUrl_append (ev : List Event) (e : Event) (d u : String) :
    hasDomUrl (ev ++ [e]) d u =
      (hasDomUrl ev d u || (extract_domain e.url == d && e.url == u)) := by
  simp [hasDomUrl]

theorem domTimeSpec_append (ev : List Event) (e : Event) (d : String) :
    domTimeSpec (ev ++ [e]) d =
      domTimeSpec ev d + (if extract_domain e.url = d then e.durationSec else 0) := by
  unfold domTimeSpec
  rw [List.filter_append]
  by_cases h : extract_domain e.url = d
  · simp [h]
  · simp [h]

theorem urlTimeSpec_append (ev : List Event) (e : Event) (d u : String) :
    urlTimeSpec (ev ++ [e]) d u =
      urlTimeSpec ev d u +
        (if extract_domain e.url = d ∧ e.url = u then e.durationSec else 0) := by
  unfold urlTimeSpec
  rw [List.filter_append, List.map_append, List.sum_append]
  congr 1
  by_cases h1 : extract_domain e.url = d
  · by_cases h2 : e.url = u
    · rw [if_pos (And.intro h1 h2)]
      have hb : (extract_domain e.url == d && e.url == u) = true := by
        rw [h1, h2]
        simp
      simp [List.filter, hb]
    · rw [if_neg (fun hc => h2 hc.2)]
      have hb : (extract_domain e.url == d && e.url == u) = false := by
        simp [h2]
      simp [List.filter, hb]
  · rw [if_neg (fun hc => h1 hc.1)]
    have hb : (extract_domain e.url == d && e.url == u) = false := by
      simp [h1]
    simp [List.filter, hb]

/-- A domain with no events contributes zero total time. -/
theorem domTimeSpec_of_not_hasDom {ev : List Event} {d : String}
    (h : hasDom ev d = false) : domTimeSpec ev d = 0 := by
  unfold domTimeSpec
  rw [List.filter_eq_nil_iff.mpr ?_]
  · rfl
  · intro e he
    intro hc
    rw [hasDom, ← Bool.not_eq_true, List.any_eq_true] at h
    exact h ⟨e, he, hc⟩

/-- A (domain, URL) pair with no events contributes zero time. -/
theorem urlTimeSpec_of_not_hasDomUrl {ev : List Event} {d u : String}
    (h : hasDomUrl ev d u = false) : urlTimeSpec ev d u = 0 := by
  unfold urlTimeSpec
  rw [List.filter_eq_nil_iff.mpr ?_]
  · rfl
  · intro e he
    intro hc
    rw [hasDomUrl, ← Bool.not_eq_true, List.any_eq_true] at h
    exact h ⟨e, he, hc⟩

/-- If no event derives `d`, then no event derives `d` with any URL. -/
theorem hasDomUrl_false_of_hasDom_false {ev : List Event} {d : String}
    (h : hasDom ev d = false) (u : String) : hasDomUrl ev d u = false := by
  rw [hasDom, ← Bool.not_eq_true, List.any_eq_true] at h
  rw [hasDomUrl, ← Bool.not_eq_true, List.any_eq_true]
  rintro ⟨e, he, hc⟩
  rw [Bool.and_eq_true] at hc
  exact h ⟨e, he, hc.1⟩

/-- Full characterisation of `group_events_by_domain`'s lookups: a domain
has a bucket iff some event derives it; the bucket's `timeSec` is the sum
of the matching events' durations, and each URL entry is the sum over that
(domain, URL) pair. -/
theorem group_lookup_spec (ev : List Event) (d : String) :
    ((group_events_by_domain ev).lookup d).isSome = hasDom ev d ∧
    ∀ b, (group_events_by_domain ev).lookup d = some b →
      b.timeSec = domTimeSpec ev d ∧
      (∀ u, ((b.urls.lookup u).isSome = hasDomUrl ev d u) ∧
        (∀ t, b.urls.lookup u = some t → t = urlTimeSpec ev d u)) := by
  induction ev using List.reverseRecOn with
  | nil =>
    refine ⟨rfl, ?_⟩
    intro b hb
    simp [group_events_by_domain, List.lookup] at hb
  | append_singleton ev e ih =>
    obtain ⟨ih1, ih2⟩ := ih
    rw [group_events_append]
    by_cases hd : extract_domain e.url = d
    · subst hd
      cases hacc : (group_events_by_domain ev).lookup (extract_domain e.url) with
      | none =>
        rw [hacc] at ih1
        simp only [bump_lookup_self, hacc]
        constructor
        · rw [hasDom_append, ← ih1]
          simp
        · intro b hb
          injection hb with hb2
          subst hb2
          refine ⟨?_, ?_⟩
          · rw [domTimeSpec_append, domTimeSpec_of_not_hasDom ih1.symm, if_pos rfl]
            simp
          · intro u
            have hdu : hasDomUrl ev (extract_domain e.url) u = false :=
              hasDomUrl_false_of_hasDom_false ih1.symm u
            by_cases hu : u = e.url
            · subst hu
              constructor
              · rw [lookup_cons_eq_ite, if_pos rfl, hasDomUrl_append, hdu]
                simp
              · intro t ht
                rw [lookup_cons_eq_ite, if_pos rfl] at ht
                injection ht with ht2
                subst ht2
                rw [urlTimeSpec_append, urlTimeSpec_of_not_hasDomUrl hdu,
                  if_pos (And.intro rfl rfl)]
                simp
            · constructor
              · rw [lookup_cons_eq_ite, if_neg hu, hasDomUrl_append, hdu]
                have hne : (e.url == u) = false :=
                  beq_eq_false_iff_ne.mpr (fun hc => hu hc.symm)
                simp [List.lookup, hne]
              · intro t ht
                rw [lookup_cons_eq_ite, if_neg hu] at ht
                simp [List.lookup] at ht
      | some b0 =>
        rw [hacc] at ih1
        obtain ⟨hts, hurls⟩ := ih2 b0 hacc
        simp only [bump_lookup_self, hacc]
        constructor
        · rw [hasDom_append]
          simp
        · intro b hb
          injection hb with hb2
          subst hb2
          refine ⟨?_, ?_⟩
          · rw [domTimeSpec_append, if_pos rfl]
            simp [hts]
          · intro u
            dsimp only
            by_cases hu : u = e.url
            · subst hu
              obtain ⟨hu1, hu2⟩ := hurls e.url
              constructor
              · rw [addUrl_lookup_self, hasDomUrl_append]
                simp
              · intro t ht
                rw [addUrl_lookup_self] at ht
                injection ht with ht2
                subst ht2
                rw [urlTimeSpec_append, if_pos (And.intro rfl rfl)]
                cases hbu : b0.urls.lookup e.url with
                | none =>
                  rw [hbu] at hu1
                  simp only [Option.isSome_none] at hu1
                  rw [urlTimeSpec_of_not_hasDomUrl hu1.symm]
                  simp
                | some t0 =>
                  rw [← hu2 t0 hbu]
                  simp
            · obtain ⟨hu1, hu2⟩ := hurls u
              have hne : (e.url == u) = false :=
                beq_eq_false_iff_ne.mpr (fun hc => hu hc.symm)
              have hne2 : (extract_domain e.url == extract_domain e.url && e.url == u) = false := by
                simp [hne]
              constructor
              · rw [addUrl_lookup_ne _ _ _ hu, hasDomUrl_append, hne2]
                simp [hu1]
              · intro t ht
                rw [addUrl_lookup_ne _ _ _ hu] at ht
                rw [urlTimeSpec_append, if_neg (fun hc => hu hc.2.symm), ← hu2 t ht]
                simp
    · have hdd : d ≠ extract_domain e.url := fun hc => hd hc.symm
      rw [bump_lookup_ne _ _ _ _ hdd]
      have hb1 : (extract_domain e.url == d) = false := beq_eq_false_iff_ne.mpr hd
      constructor
      · rw [hasDom_append, hb1, ih1]
        simp
      · intro b hb
        obtain ⟨hts, hurls⟩ := ih2 b hb
        refine ⟨?_, ?_⟩
        · rw [domTimeSpec_append, if_neg hd, hts]
          simp
        · intro u
          obtain ⟨hu1, hu2⟩ := hurls u
          have hne2 : (extract_domain e.url == d && e.url == u) = false := by
            simp [hb1]
          constructor
          · rw [hasDomUrl_append, hne2, hu1]
            simp
          · intro t ht
            rw [urlTimeSpec_append, if_neg (fun hc => hd hc.1), ← hu2 t ht]
            simp

/-- `bump` either leaves the key list unchanged or appends the new domain
at the end (Python dict insertion order). -/
theorem bump_keys (d u : String) (t : Int) :
    ∀ acc : List (String × Bucket),
      (bump acc d u t).map Prod.fst =
        if d ∈ acc.map Prod.fst then acc.map Prod.fst else acc.map Prod.fst ++ [d]
  | [] => by simp [bump]
  | (d1, b) :: rest => by
    by_cases h : d1 = d
    · subst h
      simp [bump]
    · have hh : ¬(d = d1) := fun hc => h hc.symm
      simp only [bump, if_neg h, List.map_cons, List.mem_cons, hh, false_or]
      rw [bump_keys d u t rest]
      by_cases hm : d ∈ rest.map Prod.fst
      · simp [hm]
      · simp [hm]

/-- The key list of the grouped mapping has no duplicates. -/
theorem group_keys_nodup (ev : List Event) :
    ((group_events_by_domain ev).map Prod.fst).Nodup := by
  induction ev using List.reverseRecOn with
  | nil => simp [group_events_by_domain]
  | append_singleton ev e ih =>
    rw [group_events_append, bump_keys]
    by_cases hm : extract_domain e.url ∈ (group_events_by_domain ev).map Prod.fst
    · simpa [hm] using ih
    · rw [if_neg hm]
      refine List.nodup_append.mpr ⟨ih, by simp, ?_⟩
      intro x hx hxd
      simp only [List.mem_singleton] at hxd
      subst hxd
      exact hm hx

/-- The grouped mapping's key set is the set of derived domains. -/
theorem group_keys_toFinset (ev : List Event) :
    ((group_events_by_domain ev).map Prod.fst).toFinset =
      (ev.map (fun e => extract_domain e.url)).toFinset := by
  induction ev using List.reverseRecOn with
  | nil => simp [group_events_by_domain]
  | append_singleton ev e ih =>
    rw [group_events_append, bump_keys]
    by_cases hm : extract_domain e.url ∈ (group_events_by_domain ev).map Prod.fst
    · rw [if_pos hm]
      rw [List.map_append, List.toFinset_append, ← ih]
      have : extract_domain e.url ∈ ((group_events_by_domain ev).map Prod.fst).toFinset := by
        simpa using hm
      simp [Finset.union_eq_left, this]
    · rw [if_neg hm]
      rw [List.map_append, List.toFinset_append, List.toFinset_append, ← ih]
      rfl

/-- The number of buckets is the number of distinct derived domains. -/
theorem group_length_card (ev : List Event) :
    (group_events_by_domain ev).length =
      (ev.map (fun e => extract_domain e.url)).toFinset.card := by
  rw [← group_keys_toFinset, List.toFinset_card_of_nodup (group_keys_nodup ev)]
  simp

/-- `bump` adds `t` to the total `timeSec` over all buckets. -/
theorem bump_timeSec_sum (d u : String) (t : Int) :
    ∀ acc : List (String × Bucket),
      ((bump acc d u t).map (fun p => p.2.timeSec)).sum =
        (acc.map (fun p => p.2.timeSec)).sum + t
  | [] => by simp [bump]
  | (d1, b) :: rest => by
    by_cases h : d1 = d
    · subst h
      simp [bump]
      ring
    · simp only [bump, if_neg h, List.map_cons, List.sum_cons, bump_timeSec_sum d u t rest]
      ring

/-- The total `timeSec` over all buckets equals the total duration over all
events. -/
theorem group_timeSec_sum (ev : List Event) :
    ((group_events_by_domain ev).map (fun p => p.2.timeSec)).sum =
      (ev.map (fun e => e.durationSec)).sum := by
  induction ev using List.reverseRecOn with
  | nil => rfl
  | append_singleton ev e ih =>
    rw [group_events_append, bump_timeSec_sum, ih]
    simp

/-- With no duplicate keys, membership determines the lookup. -/
theorem lookup_of_mem_nodup_keys {β : Type} :
    ∀ {l : List (String × β)}, (l.map Prod.fst).Nodup →
      ∀ {d : String} {b : β}, (d, b) ∈ l → l.lookup d = some b
  | [], _, _, _, h => by cases h
  | (d1, b1) :: rest, hn, d, b, h => by
    rcases List.mem_cons.mp h with h1 | h2
    · injection h1 with hd hb
      subst hd
      subst hb
      rw [lookup_cons_eq_ite, if_pos rfl]
    · have hd1 : d ≠ d1 := by
        intro hc
        subst hc
        simp only [List.map_cons, List.nodup_cons] at hn
        exact hn.1 (List.mem_map.mpr ⟨(d, b), h2, rfl⟩)
      rw [lookup_cons_eq_ite, if_neg hd1]
      have hn2 : (rest.map Prod.fst).Nodup := by
        simp only [List.map_cons, List.nodup_cons] at hn
        exact hn.2
      exact lookup_of_mem_nodup_keys hn2 h2

/-- Every bucket's total time is the corresponding domain's duration sum;
in particular it is non-negative when all durations are. -/
theorem group_mem_timeSec (ev : List Event) {d : String} {b : Bucket}
    (h : (d, b) ∈ group_events_by_domain ev) : b.timeSec = domTimeSpec ev d :=
  ((group_lookup_spec ev d).2 b (lookup_of_mem_nodup_keys (group_keys_nodup ev) h)).1

/-- Any-predicates are invariant under permutation. -/
theorem perm_any_eq {p : α → Bool} {l1 l2 : List α} (h : l1.Perm l2) :
    l1.any p = l2.any p := by
  by_cases h1 : l1.any p = true
  · have h2 : l2.any p = true := by
      rw [List.any_eq_true] at h1 ⊢
      obtain ⟨x, hx, hpx⟩ := h1
      exact ⟨x, h.mem_iff.mp hx, hpx⟩
    rw [h1, h2]
  · have h2 : ¬(l2.any p = true) := by
      intro hc
      apply h1
      rw [List.any_eq_true] at hc ⊢
      obtain ⟨x, hx, hpx⟩ := hc
      exact ⟨x, h.mem_iff.mpr hx, hpx⟩
    rw [Bool.not_eq_true] at h1 h2
    rw [h1, h2]

/-- C5: `analyzeSession` applied to an empty events list returns exactly
the fixed no-activity object, with `goalInferred` equal to the goal when
non-empty and to "No activity detected" otherwise. -/
theorem analyzeSession_empty_events (goal : String) :
    analyzeSession goal [] =
      { goalInferred := if goal = "" then "No activity detected" else goal,
        workspaces := [],
        resumeSummary := "No browser activity was recorded in this session.",
        lastStop := { label := "Unknown", url := "" },
        nextActions := [],
        pendingDecisions := [] } := by
  unfold analyzeSession pyOr
  rfl

/-- C4: for a non-empty event list, `get_last_stop` returns the first
event (in input order) attaining the maximal timestamp — its URL verbatim,
labelled by its title if non-empty, else its derived domain if non-empty,
else "Unknown" — and for the empty list it returns
`{label := "Unknown", url := ""}`. -/
theorem get_last_stop_spec :
    (∀ events : List Event, events ≠ [] →
      ∃ e, events.find? (fun a => events.all (fun b => b.ts ≤ a.ts)) = some e ∧
        get_last_stop events =
          { label := if e.title ≠ "" then e.title
              else if extract_domain e.url ≠ "" then extract_domain e.url
              else "Unknown",
            url := e.url }) ∧
    get_last_stop [] = { label := "Unknown", url := "" } := by
  constructor
  · intro events hev
    obtain ⟨x, xs, hsort, hfind⟩ := sortByDesc_head_find (fun e => e.ts) events hev
    refine ⟨x, hfind, ?_⟩
    unfold get_last_stop
    rw [if_neg (by simpa [List.isEmpty_iff] using hev)]
    simp only [hsort, List.headD_cons, pyOr_eq_ite]
  · rfl

/-- Witness for C4: on `evTies` the second event (the first with the
maximal timestamp 3) is selected and labelled by its title. -/
theorem get_last_stop_spec_witness :
    ∃ e, evTies.find? (fun a => evTies.all (fun b => b.ts ≤ a.ts)) = some e ∧
      get_last_stop evTies =
        { label := if e.title ≠ "" then e.title
            else if extract_domain e.url ≠ "" then extract_domain e.url
            else "Unknown",
          url := e.url } :=
  get_last_stop_spec.1 evTies (by decide)

/-- C2 (amended): when every duration is non-negative, the sum of `timeSec`
over the at-most-5 returned workspaces is at most the sum of `durationSec`
over the events; and — durations of any sign — the two sums are equal
whenever the events span at most 5 distinct derived domains. -/
theorem workspaces_time_sum (events : List Event) :
    ((∀ e ∈ events, 0 ≤ e.durationSec) →
      ((create_workspaces_from_domains (group_events_by_domain events) 5).map
        (fun w => w.timeSec)).sum ≤ (events.map (fun e => e.durationSec)).sum) ∧
    ((events.map (fun e => extract_domain e.url)).toFinset.card ≤ 5 →
      ((create_workspaces_from_domains (group_events_by_domain events) 5).map
        (fun w => w.timeSec)).sum = (events.map (fun e => e.durationSec)).sum) := by
  have hmap : ((create_workspaces_from_domains (group_events_by_domain events) 5).map
      (fun w => w.timeSec)) =
      ((sortByDesc (fun p => p.2.timeSec) (group_events_by_domain events)).take 5).map
        (fun p => p.2.timeSec) := by
    unfold create_workspaces_from_domains
    rw [List.map_map]
    rfl
  have hperm := sortByDesc_perm (fun p : String × Bucket => p.2.timeSec)
    (group_events_by_domain events)
  have hsum_sorted : ((sortByDesc (fun p : String × Bucket => p.2.timeSec)
      (group_events_by_domain events)).map (fun p => p.2.timeSec)).sum =
      (events.map (fun e => e.durationSec)).sum := by
    rw [(hperm.map (fun p => p.2.timeSec)).sum_eq, group_timeSec_sum]
  constructor
  · intro hnn
    rw [hmap, List.map_take]
    have hx : ∀ x ∈ (sortByDesc (fun p : String × Bucket => p.2.timeSec)
        (group_events_by_domain events)).map (fun p => p.2.timeSec), 0 ≤ x := by
      intro x hxm
      obtain ⟨p, hp, rfl⟩ := List.mem_map.mp hxm
      have hpmem : p ∈ group_events_by_domain events := hperm.mem_iff.mp hp
      obtain ⟨d, b⟩ := p
      rw [group_mem_timeSec events hpmem]
      unfold domTimeSpec
      apply List.sum_nonneg
      intro y hy
      obtain ⟨e2, he2, rfl⟩ := List.mem_map.mp hy
      exact hnn e2 (List.mem_of_mem_filter he2)
    have h2 := List.sum_take_add_sum_drop ((sortByDesc (fun p : String × Bucket => p.2.timeSec)
      (group_events_by_domain events)).map (fun p => p.2.timeSec)) 5
    have h3 : 0 ≤ (((sortByDesc (fun p : String × Bucket => p.2.timeSec)
        (group_events_by_domain events)).map (fun p => p.2.timeSec)).drop 5).sum :=
      List.sum_nonneg (fun x hx2 => hx x (List.mem_of_mem_drop hx2))
    omega
  · intro hcard
    rw [hmap]
    have hlen : (sortByDesc (fun p : String × Bucket => p.2.timeSec)
        (group_events_by_domain events)).length ≤ 5 := by
      rw [hperm.length_eq, group_length_card]
      exact hcard
    rw [List.take_of_length_le hlen, hsum_sorted]

/-- Counterexample to C2 as stated: at `evC2neg` (six domains, one with a
negative total) the workspaces' total time is 50 while the events' total
is 45, so the unconditional inequality fails. -/
theorem workspaces_time_sum_cex :
    ¬ (((create_workspaces_from_domains (group_events_by_domain evC2neg) 5).map
        (fun w => w.timeSec)).sum ≤ (evC2neg.map (fun e => e.durationSec)).sum) := by
  decide

/-- Witness for C2 (amended) at the spec's two-event example: both the
inequality and the equality hold there. -/
theorem workspaces_time_sum_witness :
    (((create_workspaces_from_domains (group_events_by_domain evPair) 5).map
        (fun w => w.timeSec)).sum ≤ (evPair.map (fun e => e.durationSec)).sum) ∧
    (((create_workspaces_from_domains (group_events_by_domain evPair) 5).map
        (fun w => w.timeSec)).sum = (evPair.map (fun e => e.durationSec)).sum) :=
  ⟨(workspaces_time_sum evPair).1 (by decide), (workspaces_time_sum evPair).2 (by decide)⟩

/-- C10: for non-empty events the `resumeSummary` of `analyzeSession`
interpolates a total and a site count computed from the kept (at most 5)
workspaces only, and that count is `min 5 (number of distinct derived
domains)` — so beyond 5 domains, dropped time is excluded and the count is
capped at 5. -/
theorem resumeSummary_from_kept (goal : String) (events : List Event)
    (hev : events ≠ []) :
    (analyzeSession goal events).resumeSummary =
      ("Spent " ++ toString (((keptWorkspaces events).map (fun w => w.timeSec)).sum) ++
        " seconds across " ++ toString (keptWorkspaces events).length ++
        " different sites." ++
        (" Most time on " ++ ((keptWorkspaces events).headD default).label ++ ".")) ∧
    (keptWorkspaces events).length =
      min 5 ((events.map (fun e => extract_domain e.url)).toFinset.card) := by
  have hlen : (keptWorkspaces events).length =
      min 5 ((events.map (fun e => extract_domain e.url)).toFinset.card) := by
    unfold keptWorkspaces create_workspaces_from_domains
    rw [List.length_map, List.length_take,
      (sortByDesc_perm (fun p : String × Bucket => p.2.timeSec) _).length_eq,
      group_length_card]
  have hcard_pos : 0 < (events.map (fun e => extract_domain e.url)).toFinset.card := by
    rcases events with _ | ⟨e, tl⟩
    · exact absurd rfl hev
    · exact Finset.card_pos.mpr ⟨extract_domain e.url, by simp⟩
  have hws : keptWorkspaces events ≠ [] := by
    intro hc
    have h0 := hlen
    rw [hc] at h0
    simp only [List.length_nil] at h0
    omega
  refine ⟨?_, hlen⟩
  unfold keptWorkspaces at hws
  unfold analyzeSession keptWorkspaces
  rw [if_neg (by simpa [List.isEmpty_iff] using hev)]
  dsimp only
  rw [if_pos hws]

/-- Witness for C10 at `evSix` (six domains, so one is dropped): the
reported total 40 omits the dropped domain's 5 seconds (events total 45)
and the reported count is 5. -/
theorem resumeSummary_from_kept_witness :
    ((analyzeSession ("") evSix).resumeSummary =
      ("Spent " ++ toString (((keptWorkspaces evSix).map (fun w => w.timeSec)).sum) ++
        " seconds across " ++ toString (keptWorkspaces evSix).length ++
        " different sites." ++
        (" Most time on " ++ ((keptWorkspaces evSix).headD default).label ++ ".")) ∧
      (keptWorkspaces evSix).length =
        min 5 ((evSix.map (fun e => extract_domain e.url)).toFinset.card)) ∧
    (analyzeSession ("") evSix).resumeSummary =
      "Spent 40 seconds across 5 different sites. Most time on a.com." :=
  ⟨resumeSummary_from_kept ("") evSix (by decide), by decide⟩

/-- C3: every bucket of `group_events_by_domain` carries the domain's exact
duration sum, every URL entry in a bucket carries that URL's exact
duration sum over the whole input, and — the mapping read through lookups —
the result does not depend on the order of the input events.  (The
embedded aggregator is a pure fold, so it has no side effects by
construction.) -/
theorem group_events_by_domain_spec :
    (∀ (ev : List Event) (d : String) (b : Bucket),
      (group_events_by_domain ev).lookup d = some b →
      b.timeSec = domTimeSpec ev d ∧
      ∀ u t, b.urls.lookup u = some t →
        t = ((ev.filter (fun e => e.url == u)).map (fun e => e.durationSec)).sum) ∧
    (∀ ev1 ev2 : List Event, ev1.Perm ev2 → ∀ d : String,
      (((group_events_by_domain ev1).lookup d).map (fun b => b.timeSec) =
        ((group_events_by_domain ev2).lookup d).map (fun b => b.timeSec)) ∧
      ∀ u, ((group_events_by_domain ev1).lookup d).bind (fun b => b.urls.lookup u) =
        ((group_events_by_domain ev2).lookup d).bind (fun b => b.urls.lookup u)) := by
  constructor
  · intro ev d b hb
    obtain ⟨hts, hurls⟩ := (group_lookup_spec ev d).2 b hb
    refine ⟨hts, ?_⟩
    intro u t ht
    obtain ⟨hu1, hu2⟩ := hurls u
    have hpresent : hasDomUrl ev d u = true := by
      rw [← hu1, ht]
      rfl
    have hd_eq : extract_domain u = d := by
      rw [hasDomUrl, List.any_eq_true] at hpresent
      obtain ⟨e2, he2, hc⟩ := hpresent
      rw [Bool.and_eq_true, beq_iff_eq, beq_iff_eq] at hc
      rw [← hc.2, hc.1]
    rw [hu2 t ht]
    unfold urlTimeSpec
    have hfe : (ev.filter (fun e => extract_domain e.url == d && e.url == u)) =
        (ev.filter (fun e => e.url == u)) := by
      apply List.filter_congr
      intro e2 he2
      by_cases hcu : e2.url = u
      · have hde : extract_domain e2.url = d := by rw [hcu, hd_eq]
        rw [hcu]
        rw [hcu] at hde
        simp [hde]
      · have hb1 : (e2.url == u) = false := beq_eq_false_iff_ne.mpr hcu
        simp [hb1]
    rw [hfe]
  · intro ev1 ev2 hperm d
    have h1 := group_lookup_spec ev1 d
    have h2 := group_lookup_spec ev2 d
    have hdom : hasDom ev1 d = hasDom ev2 d := perm_any_eq hperm
    have hdomurl : ∀ u, hasDomUrl ev1 d u = hasDomUrl ev2 d u :=
      fun u => perm_any_eq hperm
    have htime : ∀ d2, domTimeSpec ev1 d2 = domTimeSpec ev2 d2 := by
      intro d2
      unfold domTimeSpec
      exact ((hperm.filter _).map _).sum_eq
    have hurltime : ∀ u, urlTimeSpec ev1 d u = urlTimeSpec ev2 d u := by
      intro u
      unfold urlTimeSpec
      exact ((hperm.filter _).map _).sum_eq
    cases hl1 : (group_events_by_domain ev1).lookup d with
    | none =>
      have hd1 : hasDom ev1 d = false := by
        rw [← h1.1, hl1]
        rfl
      cases hl2 : (group_events_by_domain ev2).lookup d with
      | none => exact ⟨rfl, fun u => rfl⟩
      | some b2 =>
        have hd2 : hasDom ev2 d = true := by
          rw [← h2.1, hl2]
          rfl
        rw [hdom, hd2] at hd1
        cases hd1
    | some b1 =>
      have hd1 : hasDom ev1 d = true := by
        rw [← h1.1, hl1]
        rfl
      cases hl2 : (group_events_by_domain ev2).lookup d with
      | none =>
        have hd2 : hasDom ev2 d = false := by
          rw [← h2.1, hl2]
          rfl
        rw [hdom, hd2] at hd1
        cases hd1
      | some b2 =>
        obtain ⟨hts1, hurls1⟩ := h1.2 b1 hl1
        obtain ⟨hts2, hurls2⟩ := h2.2 b2 hl2
        constructor
        · show some b1.timeSec = some b2.timeSec
          rw [hts1, hts2, htime]
        · intro u
          obtain ⟨hp1, hv1⟩ := hurls1 u
          obtain ⟨hp2, hv2⟩ := hurls2 u
          show b1.urls.lookup u = b2.urls.lookup u
          cases hb1u : b1.urls.lookup u with
          | none =>
            cases hb2u : b2.urls.lookup u with
            | none => rfl
            | some t2 =>
              rw [hb1u] at hp1
              rw [hb2u] at hp2
              rw [hdomurl u, ← hp2] at hp1
              cases hp1
          | some t1 =>
            cases hb2u : b2.urls.lookup u with
            | none =>
              rw [hb1u] at hp1
              rw [hb2u] at hp2
              rw [hdomurl u, ← hp2] at hp1
              cases hp1
            | some t2 =>
              rw [hv1 t1 hb1u, hv2 t2 hb2u, hurltime]

/-- Witness for C3 at the spec's two-event example: the leetcode bucket's
time is its duration sum, and the docs bucket's time survives reversing
the input order. -/
theorem group_events_by_domain_spec_witness :
    ((Bucket.mk 90 [("https://leetcode.com/a", 90)]).timeSec =
      domTimeSpec evPair ("leetcode.com") ∧
      ∀ u t, (Bucket.mk 90 [("https://leetcode.com/a", 90)]).urls.lookup u = some t →
        t = ((evPair.filter (fun e => e.url == u)).map (fun e => e.durationSec)).sum) ∧
    ((group_events_by_domain evPair).lookup ("docs.google.com")).map (fun b => b.timeSec) =
      ((group_events_by_domain evPair.reverse).lookup ("docs.google.com")).map
        (fun b => b.timeSec) :=
  ⟨group_events_by_domain_spec.1 evPair ("leetcode.com") _ (by decide),
   (group_events_by_domain_spec.2 evPair evPair.reverse
     (List.reverse_perm evPair).symm ("docs.google.com")).1⟩

/-- Everything an accepted candidate satisfies: acceptance forces every
check of `validate_output` to pass. -/
theorem validate_ok_conditions {c : Candidate} {ev : List Event}
    (h : validate_output c ev = .ok ()) :
    requiredMissing c = none ∧
    (c.workspaces.getD []).length ≤ 5 ∧
    (c.workspaces.getD []).all wsKeysOk = true ∧
    (c.nextActions.getD []).length ≤ 5 ∧
    (c.pendingDecisions.getD []).length ≤ 3 ∧
    (c.aiActions.getD []).length = 3 ∧
    (∀ a ∈ c.aiActions.getD [], mentionsKnownDomain (inputDomains ev) a = true) ∧
    (lastStopUrl c = "" ∨ lastStopUrl c ∈ inputUrls ev) ∧
    (∀ u ∈ wsTopUrls c, u = "" ∨ (inputUrls ev).contains u = true) := by
  unfold validate_output at h
  cases hreq : requiredMissing c with
  | some f =>
    rw [hreq] at h
    exact Except.noConfusion h
  | none =>
    rw [hreq] at h
    dsimp only at h
    by_cases h1 : 5 < (c.workspaces.getD []).length
    · rw [if_pos h1] at h
      exact Except.noConfusion h
    rw [if_neg h1] at h
    by_cases h2 : (!(c.workspaces.getD []).all wsKeysOk) = true
    · rw [if_pos h2] at h
      exact Except.noConfusion h
    rw [if_neg h2] at h
    by_cases h3 : 5 < (c.nextActions.getD []).length
    · rw [if_pos h3] at h
      exact Except.noConfusion h
    rw [if_neg h3] at h
    by_cases h4 : 3 < (c.pendingDecisions.getD []).length
    · rw [if_pos h4] at h
      exact Except.noConfusion h
    rw [if_neg h4] at h
    by_cases h5 : sentenceCount (c.aiRecap.getD ("")) < 2 ∨
        3 < sentenceCount (c.aiRecap.getD (""))
    · rw [if_pos h5] at h
      exact Except.noConfusion h
    rw [if_neg h5] at h
    by_cases h6 : (c.aiActions.getD []).length ≠ 3
    · rw [if_pos h6] at h
      exact Except.noConfusion h
    rw [if_neg h6] at h
    cases hfind1 : (c.aiActions.getD []).find?
        (fun a => !mentionsKnownDomain (inputDomains ev) a) with
    | some a =>
      rw [hfind1] at h
      exact Except.noConfusion h
    | none =>
      rw [hfind1] at h
      dsimp only at h
      by_cases h7 : lastStopUrl c ≠ "" ∧ ¬(lastStopUrl c ∈ inputUrls ev)
      · rw [if_pos h7] at h
        exact Except.noConfusion h
      rw [if_neg h7] at h
      cases hfind2 : (wsTopUrls c).find?
          (fun u => u != "" && !(inputUrls ev).contains u) with
      | some u =>
        rw [hfind2] at h
        exact Except.noConfusion h
      | none =>
        refine ⟨rfl, Nat.not_lt.mp h1, ?_, Nat.not_lt.mp h3,
          Nat.not_lt.mp h4, not_ne_iff.mp h6, ?_, ?_, ?_⟩
        · simpa using h2
        · intro a ha
          have hx := List.find?_eq_none.mp hfind1 a ha
          simpa using hx
        · by_cases hls : lastStopUrl c = ""
          · exact Or.inl hls
          · right
            by_contra hnotin
            exact h7 ⟨hls, hnotin⟩
        · intro u hu
          have hx := List.find?_eq_none.mp hfind2 u hu
          by_cases hue : u = ""
          · exact Or.inl hue
          · right
            by_contra hcont
            apply hx
            rw [Bool.and_eq_true]
            refine ⟨by simpa using hue, ?_⟩
            rw [Bool.not_eq_true] at hcont
            rw [Bool.not_eq_true', hcont]

/-- When every check before the lastStop check passes and the lastStop URL
is non-empty and unknown, `validate_output` fails with exactly the message
that names the offending URL. -/
theorem validate_lastStop_message {c : Candidate} {ev : List Event}
    (hpre : preLastStopOk c ev) (hne : lastStopUrl c ≠ "")
    (hnotin : ¬ lastStopUrl c ∈ inputUrls ev) :
    validate_output c ev =
      .error ("lastStop.url \x27" ++ lastStopUrl c ++ "\x27 not found in input events") := by
  obtain ⟨hreq, h1, h2, h3, h4, h5a, h5b, h6, h7⟩ := hpre
  unfold validate_output
  rw [hreq]
  dsimp only
  rw [if_neg (by omega)]
  rw [if_neg (by simp [h2])]
  rw [if_neg (by omega)]
  rw [if_neg (by omega)]
  rw [if_neg (by omega)]
  rw [if_neg (by omega)]
  have hf1 : (c.aiActions.getD []).find?
      (fun a => !mentionsKnownDomain (inputDomains ev) a) = none :=
    List.find?_eq_none.mpr (fun a ha => by simp [h7 a ha])
  rw [hf1]
  dsimp only
  rw [if_pos ⟨hne, hnotin⟩]

/-- C1 (amended): acceptance grounds the non-empty `lastStop.url` and every
non-empty workspace `topUrls` entry in the input events' URLs (the
validator skips empty-string entries); conversely a candidate whose
`lastStop.url` is non-empty and not an input URL is never accepted, and
whenever the checks before the lastStop check pass, the rejection message
contains the offending URL. -/
theorem validator_grounding :
    (∀ (c : Candidate) (ev : List Event), validate_output c ev = .ok () →
      (lastStopUrl c ≠ "" → lastStopUrl c ∈ inputUrls ev) ∧
      (∀ u ∈ wsTopUrls c, u ≠ "" → u ∈ inputUrls ev)) ∧
    (∀ (c : Candidate) (ev : List Event), lastStopUrl c ≠ "" →
      ¬ lastStopUrl c ∈ inputUrls ev →
      validate_output c ev ≠ .ok () ∧
      (preLastStopOk c ev →
        ∃ pre suf, validate_output c ev = .error (pre ++ lastStopUrl c ++ suf))) := by
  constructor
  · intro c ev h
    obtain ⟨-, -, -, -, -, -, -, h9, h10⟩ := validate_ok_conditions h
    constructor
    · intro hne
      rcases h9 with h9 | h9
      · exact absurd h9 hne
      · exact h9
    · intro u hu hune
      rcases h10 u hu with hcase | hcase
      · exact absurd hcase hune
      · exact List.mem_of_elem_eq_true hcase
  · intro c ev hne hnotin
    constructor
    · intro hok
      obtain ⟨-, -, -, -, -, -, -, h9, -⟩ := validate_ok_conditions hok
      rcases h9 with h9 | h9
      · exact hne h9
      · exact hnotin h9
    · intro hpre
      exact ⟨"lastStop.url \x27", "\x27 not found in input events",
        validate_lastStop_message hpre hne hnotin⟩

/-- Counterexample to C1 as stated: `cand1` is accepted although the empty
string sits in its workspace `topUrls` and is not an input URL, and
`cand2` (whose `lastStop.url` is not an input URL) is rejected with a
message about `nextActions` that does not contain that URL. -/
theorem validator_grounding_cex :
    validate_output cand1 ev1 = .ok () ∧
    (∃ ws ∈ cand1.workspaces.getD [], "" ∈ ws.topUrls.getD []) ∧
    ¬ ("" ∈ inputUrls ev1) ∧
    lastStopUrl cand2 = "https://bad.com" ∧
    ¬ (lastStopUrl cand2 ∈ inputUrls ev1) ∧
    validate_output cand2 ev1 = .error ("Too many nextActions: 6 (max 5)") ∧
    strContainsSub ("Too many nextActions: 6 (max 5)") (lastStopUrl cand2) = false := by
  refine ⟨rfl, by decide, by decide, rfl, by decide, rfl, by decide⟩

/-- Witness for C1 at `cand3`/`ev1`: an otherwise-valid candidate with
`lastStop.url = "https://not-in-input.com"` is rejected and the message
contains the URL (spec Example 3), and the accepted `cand1` grounds its
non-empty URLs. -/
theorem validator_grounding_witness :
    ((lastStopUrl cand1 ≠ "" → lastStopUrl cand1 ∈ inputUrls ev1) ∧
      (∀ u ∈ wsTopUrls cand1, u ≠ "" → u ∈ inputUrls ev1)) ∧
    (validate_output cand3 ev1 ≠ .ok () ∧
      (preLastStopOk cand3 ev1 →
        ∃ pre suf, validate_output cand3 ev1 =
          .error (pre ++ lastStopUrl cand3 ++ suf))) :=
  ⟨validator_grounding.1 cand1 ev1 rfl,
   validator_grounding.2 cand3 ev1 (by decide) (by decide)⟩

/-- C6: the Enrichment Validator rejects whenever `aiActions` does not have
exactly 3 entries, and whenever some entry contains no input-derived
domain as a substring. -/
theorem validator_aiActions (c : Candidate) (ev : List Event) :
    ((c.aiActions.getD []).length ≠ 3 → validate_output c ev ≠ .ok ()) ∧
    ((∃ a ∈ c.aiActions.getD [], ∀ d2 ∈ ev.map (fun e => extract_domain e.url),
        strContainsSub a d2 = false) →
      validate_output c ev ≠ .ok ()) := by
  constructor
  · intro hlen hok
    exact hlen (validate_ok_conditions hok).2.2.2.2.2.1
  · rintro ⟨a, ha, hnd⟩ hok
    have hm := (validate_ok_conditions hok).2.2.2.2.2.2.1 a ha
    rw [mentionsKnownDomain, List.any_eq_true] at hm
    obtain ⟨d2, hd2, hprop⟩ := hm
    rw [Bool.and_eq_true] at hprop
    have hd2x : d2 ∈ ev.map (fun e => extract_domain e.url) := by
      rw [inputDomains] at hd2
      obtain ⟨e2, he2, rfl⟩ := List.mem_map.mp hd2
      exact List.mem_map.mpr ⟨e2, List.mem_of_mem_filter he2, rfl⟩
    have hcontra := hprop.2
    rw [hnd d2 hd2x] at hcontra
    exact Bool.noConfusion hcontra

/-- Witness for C6: `cand4` (two aiActions) and `cand5` (three aiActions
mentioning no input domain) are both rejected on input `ev1`. -/
theorem validator_aiActions_witness :
    validate_output cand4 ev1 ≠ .ok () ∧ validate_output cand5 ev1 ≠ .ok () :=
  ⟨(validator_aiActions cand4 ev1).1 (by decide),
   (validator_aiActions cand5 ev1).2 ⟨"x", by decide, by decide⟩⟩

theorem fillAiRecap_aiRecap (c : Candidate) :
    (fillAiRecap c).aiRecap = if c.aiRecap.isNone && optStrTruthy c.resumeSummary
      then some (c.resumeSummary.getD ("")) else c.aiRecap := by
  unfold fillAiRecap
  split
  next h => rfl
  next h => rfl

theorem fillAiActions_aiActions (c : Candidate) :
    (fillAiActions c).aiActions = if c.aiActions.isNone && optListTruthy c.nextActions
      then some ((c.nextActions.getD []).take 3) else c.aiActions := by
  unfold fillAiActions
  split
  next h => rfl
  next h => rfl

theorem fillLegacySummary_resumeSummary (c : Candidate) :
    (fillLegacySummary c).resumeSummary =
      if c.resumeSummary.isNone && optStrTruthy c.aiRecap
      then some (c.aiRecap.getD ("")) else c.resumeSummary := by
  unfold fillLegacySummary
  split
  next h => rfl
  next h => rfl

theorem fillLegacyActions_nextActions (c : Candidate) :
    (fillLegacyActions c).nextActions =
      if c.nextActions.isNone && optListTruthy c.aiActions
      then some (c.aiActions.getD []) else c.nextActions := by
  unfold fillLegacyActions
  split
  next h => rfl
  next h => rfl

theorem fillScore_score (c : Candidate) :
    (fillScore c).aiConfidenceScore = some (c.aiConfidenceScore.getD 0) := by
  unfold fillScore
  split
  next h =>
    rw [Option.isNone_iff_eq_none] at h
    show some 0 = some (c.aiConfidenceScore.getD 0)
    rw [h]
    rfl
  next h =>
    show c.aiConfidenceScore = some (c.aiConfidenceScore.getD 0)
    cases hcs : c.aiConfidenceScore with
    | none => exact absurd (by rw [hcs]; rfl) h
    | some v => rfl

theorem fillLabel_label (c : Candidate) :
    (fillLabel c).aiConfidenceLabel = some (c.aiConfidenceLabel.getD ("low")) := by
  unfold fillLabel
  split
  next h =>
    rw [Option.isNone_iff_eq_none] at h
    show some ("low") = some (c.aiConfidenceLabel.getD ("low"))
    rw [h]
    rfl
  next h =>
    show c.aiConfidenceLabel = some (c.aiConfidenceLabel.getD ("low"))
    cases hcl : c.aiConfidenceLabel with
    | none => exact absurd (by rw [hcl]; rfl) h
    | some v => rfl

theorem fillAiRecap_resumeSummary (c : Candidate) :
    (fillAiRecap c).resumeSummary = c.resumeSummary := by
  unfold fillAiRecap
  split <;> rfl

theorem fillAiRecap_nextActions (c : Candidate) :
    (fillAiRecap c).nextActions = c.nextActions := by
  unfold fillAiRecap
  split <;> rfl

theorem fillAiRecap_aiActions (c : Candidate) :
    (fillAiRecap c).aiActions = c.aiActions := by
  unfold fillAiRecap
  split <;> rfl

theorem fillAiRecap_score (c : Candidate) :
    (fillAiRecap c).aiConfidenceScore = c.aiConfidenceScore := by
  unfold fillAiRecap
  split <;> rfl

theorem fillAiRecap_label (c : Candidate) :
    (fillAiRecap c).aiConfidenceLabel = c.aiConfidenceLabel := by
  unfold fillAiRecap
  split <;> rfl

theorem fillAiActions_aiRecap (c : Candidate) :
    (fillAiActions c).aiRecap = c.aiRecap := by
  unfold fillAiActions
  split <;> rfl

theorem fillAiActions_resumeSummary (c : Candidate) :
    (fillAiActions c).resumeSummary = c.resumeSummary := by
  unfold fillAiActions
  split <;> rfl

theorem fillAiActions_nextActions (c : Candidate) :
    (fillAiActions c).nextActions = c.nextActions := by
  unfold fillAiActions
  split <;> rfl

theorem fillAiActions_score (c : Candidate) :
    (fillAiActions c).aiConfidenceScore = c.aiConfidenceScore := by
  unfold fillAiActions
  split <;> rfl

theorem fillAiActions_label (c : Candidate) :
    (fillAiActions c).aiConfidenceLabel = c.aiConfidenceLabel := by
  unfold fillAiActions
  split <;> rfl

theorem fillLegacySummary_aiRecap (c : Candidate) :
    (fillLegacySummary c).aiRecap = c.aiRecap := by
  unfold fillLegacySummary
  split <;> rfl

theorem fillLegacySummary_aiActions (c : Candidate) :
    (fillLegacySummary c).aiActions = c.aiActions := by
  unfold fillLegacySummary
  split <;> rfl

theorem fillLegacySummary_nextActions (c : Candidate) :
    (fillLegacySummary c).nextActions = c.nextActions := by
  unfold fillLegacySummary
  split <;> rfl

theorem fillLegacySummary_score (c : Candidate) :
    (fillLegacySummary c).aiConfidenceScore = c.aiConfidenceScore := by
  unfold fillLegacySummary
  split <;> rfl

theorem fillLegacySummary_label (c : Candidate) :
    (fillLegacySummary c).aiConfidenceLabel = c.aiConfidenceLabel := by
  unfold fillLegacySummary
  split <;> rfl

theorem fillLegacyActions_aiRecap (c : Candidate) :
    (fillLegacyActions c).aiRecap = c.aiRecap := by
  unfold fillLegacyActions
  split <;> rfl

theorem fillLegacyActions_aiActions (c : Candidate) :
    (fillLegacyActions c).aiActions = c.aiActions := by
  unfold fillLegacyActions
  split <;> rfl

theorem fillLegacyActions_resumeSummary (c : Candidate) :
    (fillLegacyActions c).resumeSummary = c.resumeSummary := by
  unfold fillLegacyActions
  split <;> rfl

theorem fillLegacyActions_score (c : Candidate) :
    (fillLegacyActions c).aiConfidenceScore = c.aiConfidenceScore := by
  unfold fillLegacyActions
  split <;> rfl

theorem fillLegacyActions_label (c : Candidate) :
    (fillLegacyActions c).aiConfidenceLabel = c.aiConfidenceLabel := by
  unfold fillLegacyActions
  split <;> rfl

theorem fillScore_aiRecap (c : Candidate) :
    (fillScore c).aiRecap = c.aiRecap := by
  unfold fillScore
  split <;> rfl

theorem fillScore_aiActions (c : Candidate) :
    (fillScore c).aiActions = c.aiActions := by
  unfold fillScore
  split <;> rfl

theorem fillScore_resumeSummary (c : Candidate) :
    (fillScore c).resumeSummary = c.resumeSummary := by
  unfold fillScore
  split <;> rfl

theorem fillScore_nextActions (c : Candidate) :
    (fillScore c).nextActions = c.nextActions := by
  unfold fillScore
  split <;> rfl

theorem fillScore_label (c : Candidate) :
    (fillScore c).aiConfidenceLabel = c.aiConfidenceLabel := by
  unfold fillScore
  split <;> rfl

theorem fillLabel_aiRecap (c : Candidate) :
    (fillLabel c).aiRecap = c.aiRecap := by
  unfold fillLabel
  split <;> rfl

theorem fillLabel_aiActions (c : Candidate) :
    (fillLabel c).aiActions = c.aiActions := by
  unfold fillLabel
  split <;> rfl

theorem fillLabel_resumeSummary (c : Candidate) :
    (fillLabel c).resumeSummary = c.resumeSummary := by
  unfold fillLabel
  split <;> rfl

theorem fillLabel_nextActions (c : Candidate) :
    (fillLabel c).nextActions = c.nextActions := by
  unfold fillLabel
  split <;> rfl

theorem fillLabel_score (c : Candidate) :
    (fillLabel c).aiConfidenceScore = c.aiConfidenceScore := by
  unfold fillLabel
  split <;> rfl

/-- C7 (amended): `normalize_ai_fields` fills a missing alias field only
when its counterpart is present and non-empty (truthy) — `aiRecap` from
`resumeSummary` and back, `aiActions` from the first 3 entries of
`nextActions`, `nextActions` from `aiActions` untruncated — and always
defaults a missing `aiConfidenceScore` to 0.0 and a missing
`aiConfidenceLabel` to "low"; an alias whose counterpart is missing or
empty stays absent, so validation is not guaranteed a fully-populated
object. -/
theorem normalize_ai_fields_spec (c : Candidate) :
    ((normalize_ai_fields c).aiRecap =
      if c.aiRecap.isNone && optStrTruthy c.resumeSummary
      then some (c.resumeSummary.getD ("")) else c.aiRecap) ∧
    ((normalize_ai_fields c).aiActions =
      if c.aiActions.isNone && optListTruthy c.nextActions
      then some ((c.nextActions.getD []).take 3) else c.aiActions) ∧
    ((normalize_ai_fields c).resumeSummary =
      if c.resumeSummary.isNone && optStrTruthy c.aiRecap
      then some (c.aiRecap.getD ("")) else c.resumeSummary) ∧
    ((normalize_ai_fields c).nextActions =
      if c.nextActions.isNone && optListTruthy c.aiActions
      then some (c.aiActions.getD []) else c.nextActions) ∧
    (normalize_ai_fields c).aiConfidenceScore = some (c.aiConfidenceScore.getD 0) ∧
    (normalize_ai_fields c).aiConfidenceLabel = some (c.aiConfidenceLabel.getD ("low")) := by
  unfold normalize_ai_fields
  refine ⟨?_, ?_, ?_, ?_, ?_, ?_⟩
  · rw [fillLabel_aiRecap, fillScore_aiRecap, fillLegacyActions_aiRecap,
      fillLegacySummary_aiRecap, fillAiActions_aiRecap, fillAiRecap_aiRecap]
  · rw [fillLabel_aiActions, fillScore_aiActions, fillLegacyActions_aiActions,
      fillLegacySummary_aiActions, fillAiActions_aiActions, fillAiRecap_aiActions,
      fillAiRecap_nextActions]
  · rw [fillLabel_resumeSummary, fillScore_resumeSummary, fillLegacyActions_resumeSummary,
      fillLegacySummary_resumeSummary, fillAiActions_resumeSummary, fillAiRecap_resumeSummary,
      fillAiActions_aiRecap, fillAiRecap_aiRecap]
    cases hrs : c.resumeSummary with
    | some s => simp
    | none => simp [optStrTruthy]
  · rw [fillLabel_nextActions, fillScore_nextActions, fillLegacyActions_nextActions,
      fillLegacySummary_nextActions, fillAiActions_nextActions,
      fillLegacySummary_aiActions, fillAiActions_aiActions, fillAiRecap_aiActions,
      fillAiRecap_nextActions]
    cases hna : c.nextActions with
    | some l => simp
    | none => simp [optListTruthy]
  · rw [fillLabel_score, fillScore_score, fillLegacyActions_score,
      fillLegacySummary_score, fillAiActions_score, fillAiRecap_score]
  · rw [fillLabel_label, fillScore_label, fillLegacyActions_label,
      fillLegacySummary_label, fillAiActions_label, fillAiRecap_label]

/-- Counterexample to C7 as stated: for `cand7` (resumeSummary present but
empty, all other fields missing) normalization leaves `aiRecap` absent and
only adds the confidence defaults, so validation afterwards does not see a
fully-populated object — it fails on the first missing required field. -/
theorem normalize_ai_fields_cex :
    cand7.resumeSummary = some ("") ∧
    cand7.aiRecap = none ∧
    (normalize_ai_fields cand7).aiRecap = none ∧
    validate_output (normalize_ai_fields cand7) [] =
      .error ("Missing required field: goalInferred") :=
  ⟨rfl, rfl, rfl, rfl⟩

/-- C8 (amended): for a dictionary input whose `taskOrder` (or its default
`[]`) is sliceable — a list or a string — the Plan Sanitizer returns a
result instead of failing, with missing top-level keys defaulted to empty
and non-list `prioritizedTasks`, `suggestions`, `insights` downgraded to
empty; but a non-dict input raises `ValueError`, and a dict whose
`taskOrder` is not sliceable raises `TypeError`. -/
theorem validate_planner_total (kvs : List (String × PVal))
    (h : ∃ v, pySlice 10 ((getKey kvs ("taskOrder")).getD (.plist [])) = .ok v) :
    ∃ r, validate_planner_output (.pdict kvs) = .ok r ∧
      ((∀ pv, getKey kvs ("prioritizedTasks") = some pv →
          (∀ xs, pv ≠ .plist xs) → r.prioritizedTasks = []) ∧
        (getKey kvs ("prioritizedTasks") = none → r.prioritizedTasks = [])) ∧
      ((∀ pv, getKey kvs ("suggestions") = some pv →
          (∀ xs, pv ≠ .plist xs) → r.suggestions = []) ∧
        (getKey kvs ("suggestions") = none → r.suggestions = [])) ∧
      ((∀ pv, getKey kvs ("insights") = some pv →
          (∀ xs, pv ≠ .plist xs) → r.insights = []) ∧
        (getKey kvs ("insights") = none → r.insights = [])) := by
  obtain ⟨v, hv⟩ := h
  unfold validate_planner_output
  dsimp only
  rw [hv]
  refine ⟨_, rfl, ⟨?_, ?_⟩, ⟨?_, ?_⟩, ⟨?_, ?_⟩⟩
  · intro pv hpv hnl
    rw [hpv]
    dsimp only
    cases pv with
    | plist xs => exact absurd rfl (hnl xs)
    | pstr s => rfl
    | pint n => rfl
    | pbool b => rfl
    | pnone => rfl
    | pdict kv2 => rfl
  · intro hnone
    rw [hnone]
    rfl
  · intro pv hpv hnl
    rw [hpv]
    dsimp only
    cases pv with
    | plist xs => exact absurd rfl (hnl xs)
    | pstr s => rfl
    | pint n => rfl
    | pbool b => rfl
    | pnone => rfl
    | pdict kv2 => rfl
  · intro hnone
    rw [hnone]
    rfl
  · intro pv hpv hnl
    rw [hpv]
    dsimp only
    cases pv with
    | plist xs => exact absurd rfl (hnl xs)
    | pstr s => rfl
    | pint n => rfl
    | pbool b => rfl
    | pnone => rfl
    | pdict kv2 => rfl
  · intro hnone
    rw [hnone]
    rfl

/-- Counterexample to C8 as stated: a non-dict input raises `ValueError`,
and even a dict input fails when its `taskOrder` is not sliceable. -/
theorem validate_planner_total_cex :
    validate_planner_output (.plist []) =
      .error ("Planner output must be a dictionary") ∧
    validate_planner_output planBadOrder =
      .error ("TypeError: \x27int\x27 object is not subscriptable") :=
  ⟨rfl, rfl⟩

/-- Witness for C8 (amended) at `planTwelve`: the call returns, its string
`taskOrder` was sliceable, and the non-list `suggestions` value is
downgraded to the empty list. -/
theorem validate_planner_total_witness :
    ∃ r, validate_planner_output planTwelve = .ok r ∧
      ((∀ pv, getKey planTwelveKVs ("prioritizedTasks") = some pv →
          (∀ xs, pv ≠ .plist xs) → r.prioritizedTasks = []) ∧
        (getKey planTwelveKVs ("prioritizedTasks") = none → r.prioritizedTasks = [])) ∧
      ((∀ pv, getKey planTwelveKVs ("suggestions") = some pv →
          (∀ xs, pv ≠ .plist xs) → r.suggestions = []) ∧
        (getKey planTwelveKVs ("suggestions") = none → r.suggestions = [])) ∧
      ((∀ pv, getKey planTwelveKVs ("insights") = some pv →
          (∀ xs, pv ≠ .plist xs) → r.insights = []) ∧
        (getKey planTwelveKVs ("insights") = none → r.insights = [])) :=
  validate_planner_total planTwelveKVs ⟨.pstr ("abcdefghij"), rfl⟩

/-- C9 (amended): a task entry is kept iff it is a dict containing both
`id` and `title`; kept entries appear in original relative order truncated
to 10; and each sanitized task is rebuilt with exactly the keys `id`,
`title`, `priority`, `urgency`, `estimatedTime`, `dependencies`, `reason`,
`context` — `id`, `title`, `estimatedTime`, `reason`, `context`
str-coerced, `dependencies` emptied when not list-shaped, `priority` and
`urgency` defaulting to "medium"/"soon" only when the key is MISSING (an
invalid present value such as "banana" is kept verbatim), and no
`description` key at all. -/
theorem sanitize_tasks_spec (kvs : List (String × PVal)) (xs : List PVal)
    (hpt : getKey kvs ("prioritizedTasks") = some (.plist xs))
    (hord : ∃ v, pySlice 10 ((getKey kvs ("taskOrder")).getD (.plist [])) = .ok v) :
    ∃ r, validate_planner_output (.pdict kvs) = .ok r ∧
      r.prioritizedTasks = (xs.filterMap sanitize_task).take 10 ∧
      r.prioritizedTasks.length ≤ 10 ∧
      (∀ t ∈ xs, ((sanitize_task t).isSome = true ↔
        ∃ tkvs, t = .pdict tkvs ∧ (getKey tkvs ("id")).isSome = true ∧
          (getKey tkvs ("title")).isSome = true)) ∧
      (∀ tkvs s, sanitize_task (.pdict tkvs) = some (.pdict s) →
        getKey s ("id") = some (.pstr (pyStr ((getKey tkvs ("id")).getD (.pstr (""))))) ∧
        getKey s ("title") = some (.pstr (pyStr ((getKey tkvs ("title")).getD (.pstr (""))))) ∧
        getKey s ("priority") = some ((getKey tkvs ("priority")).getD (.pstr ("medium"))) ∧
        getKey s ("urgency") = some ((getKey tkvs ("urgency")).getD (.pstr ("soon"))) ∧
        getKey s ("estimatedTime") =
          some (.pstr (pyStr ((getKey tkvs ("estimatedTime")).getD (.pstr ("30 minutes"))))) ∧
        getKey s ("dependencies") = some (.plist (depList tkvs)) ∧
        getKey s ("reason") = some (.pstr (pyStr ((getKey tkvs ("reason")).getD (.pstr (""))))) ∧
        getKey s ("context") = some (.pstr (pyStr ((getKey tkvs ("context")).getD (.pstr (""))))) ∧
        getKey s ("description") = none) := by
  obtain ⟨v, hv⟩ := hord
  unfold validate_planner_output
  dsimp only
  rw [hv, hpt]
  dsimp only
  refine ⟨_, rfl, rfl, ?_, ?_, ?_⟩
  · rw [List.length_take]
    exact min_le_left _ _
  · intro t ht
    cases t with
    | pdict tkvs =>
      unfold sanitize_task
      dsimp only
      by_cases hc : (getKey tkvs ("id")).isSome = true ∧ (getKey tkvs ("title")).isSome = true
      · rw [if_pos hc]
        simp only [Option.isSome_some, true_iff]
        exact ⟨tkvs, rfl, hc.1, hc.2⟩
      · rw [if_neg hc]
        constructor
        · intro hx
          exact Bool.noConfusion hx
        · rintro ⟨tkvs2, heq, h1, h2⟩
          injection heq with heq2
          subst heq2
          exact absurd ⟨h1, h2⟩ hc
    | pstr s => simp [sanitize_task]
    | pint n => simp [sanitize_task]
    | pbool b => simp [sanitize_task]
    | pnone => simp [sanitize_task]
    | plist ys => simp [sanitize_task]
  · intro tkvs s hs
    unfold sanitize_task at hs
    dsimp only at hs
    by_cases hc : (getKey tkvs ("id")).isSome = true ∧ (getKey tkvs ("title")).isSome = true
    · rw [if_pos hc] at hs
      injection hs with hs2
      injection hs2 with hs3
      subst hs3
      exact ⟨rfl, rfl, rfl, rfl, rfl, rfl, rfl, rfl, rfl⟩
    · rw [if_neg hc] at hs
      exact Option.noConfusion hs

/-- Counterexample to C9 as stated: the sanitized task for `planBanana`
keeps the invalid priority "banana" verbatim (instead of defaulting it to
"medium") and carries no `description` key at all. -/
theorem sanitize_tasks_cex :
    validate_planner_output planBanana =
      .ok { prioritizedTasks := [bananaTaskOut],
            taskOrder := .plist [],
            suggestions := [],
            insights := [] } ∧
    getKey bananaTaskKVs ("priority") = some (.pstr ("banana")) ∧
    getKey bananaTaskKVs ("description") = none := by
  refine ⟨?_, by rfl, by rfl⟩
  rfl

/-- Witness for C9 (amended) at `planTwelve`: twelve well-formed tasks come
back as exactly the first ten, in order, with every sanitized field
present. -/
theorem sanitize_tasks_witness :
    (∃ r, validate_planner_output planTwelve = .ok r ∧
      r.prioritizedTasks =
        ((((List.range 12).map (fun i =>
          PVal.pdict [("id", .pint i), ("title", .pstr ("t"))])) : List PVal).filterMap
            sanitize_task).take 10 ∧
      r.prioritizedTasks.length ≤ 10 ∧
      (∀ t ∈ (((List.range 12).map (fun i =>
          PVal.pdict [("id", .pint i), ("title", .pstr ("t"))])) : List PVal),
        ((sanitize_task t).isSome = true ↔
          ∃ tkvs, t = .pdict tkvs ∧ (getKey tkvs ("id")).isSome = true ∧
            (getKey tkvs ("title")).isSome = true)) ∧
      (∀ tkvs s, sanitize_task (.pdict tkvs) = some (.pdict s) →
        getKey s ("id") = some (.pstr (pyStr ((getKey tkvs ("id")).getD (.pstr (""))))) ∧
        getKey s ("title") = some (.pstr (pyStr ((getKey tkvs ("title")).getD (.pstr (""))))) ∧
        getKey s ("priority") = some ((getKey tkvs ("priority")).getD (.pstr ("medium"))) ∧
        getKey s ("urgency") = some ((getKey tkvs ("urgency")).getD (.pstr ("soon"))) ∧
        getKey s ("estimatedTime") =
          some (.pstr (pyStr ((getKey tkvs ("estimatedTime")).getD (.pstr ("30 minutes"))))) ∧
        getKey s ("dependencies") = some (.plist (depList tkvs)) ∧
        getKey s ("reason") = some (.pstr (pyStr ((getKey tkvs ("reason")).getD (.pstr (""))))) ∧
        getKey s ("context") = some (.pstr (pyStr ((getKey tkvs ("context")).getD (.pstr (""))))) ∧
        getKey s ("description") = none)) :=
  sanitize_tasks_spec planTwelveKVs _ rfl ⟨.pstr ("abcdefghij"), rfl⟩
